import Mathlib

/-!
Verification of the Spiltixal terminal core (cell/grid model, escape-sequence
interpreter, terminal session, scrollback search) against its specification.

The Rust source in src/main.rs is embedded shallowly:
* machine integers (usize, u16, u8) become Nat, with explicit truncation
  (% 256) where the source casts to a narrower type;
* operations that can panic (Vec::remove / Vec::insert / index assignment
  out of bounds) return Option; a result of none models a Rust panic;
* the vte lexer crate is not part of the repository, so the byte-level
  state machine is modelled from the specification (marked below).
-/

/-- Embeds enum TermColor: Default, Ansi(u8), Ansi256(u8), Rgb(u8,u8,u8).
The u8 payloads are Nats; producers truncate with % 256 where Rust casts. -/
inductive TermColor
  | Default
  | Ansi (idx : Nat)
  | Ansi256 (idx : Nat)
  | Rgb (r g b : Nat)
deriving DecidableEq

/-- Embeds struct Attrs: the eight SGR attribute flags. -/
structure Attrs where
  bold : Bool := false
  dim : Bool := false
  italic : Bool := false
  underline : Bool := false
  blink : Bool := false
  reverse : Bool := false
  invisible : Bool := false
  strikeout : Bool := false
deriving DecidableEq

/-- Attrs::default(): all flags off. -/
def Attrs.default : Attrs := {}

/-- Embeds struct Cell: codepoint, colors, attributes, display width. -/
structure Cell where
  ch : Char
  fg : TermColor
  bg : TermColor
  attrs : Attrs
  width : Nat
deriving DecidableEq

/-- Cell::default(): blank space, default colors, no attributes, width 1. -/
def Cell.default : Cell :=
  { ch := ' ', fg := TermColor.Default, bg := TermColor.Default,
    attrs := Attrs.default, width := 1 }

/-- Models Vec::remove(i): returns the removed element and the shifted
vector, or none (panic) when the index is out of bounds. -/
def vecRemove (l : List α) (i : Nat) : Option (α × List α) :=
  match l[i]? with
  | some a => some (a, l.eraseIdx i)
  | none => none

/-- Models Vec::insert(i, x): none (panic) when i exceeds the length. -/
def vecInsert (l : List α) (i : Nat) (x : α) : Option (List α) :=
  if i ≤ l.length then some (l.insertIdx i x) else none

/-- Models the indexed assignment cells[y][x] = v: none (panic) when either
index is out of bounds. -/
def setCell (cells : List (List Cell)) (y x : Nat) (v : Cell) :
    Option (List (List Cell)) :=
  match cells[y]? with
  | some row => if x < row.length then some (cells.set y (row.set x v)) else none
  | none => none

/-- Models the loop for y in lo..hi that overwrites cells[y] with default
cells: none (panic) when the nonempty range reaches past the end. -/
def eraseRows (cells : List (List Cell)) (lo hi : Nat) :
    Option (List (List Cell)) :=
  if hi ≤ lo then some cells
  else if hi ≤ cells.length then
    some (cells.mapIdx fun y row =>
      if lo ≤ y ∧ y < hi then List.replicate row.length Cell.default else row)
  else none

/-- Models UnicodeWidthChar::width from the unicode-width crate for the
code-point ranges exercised here: width 0 for combining marks, width 2 for
the common East-Asian wide blocks, width 1 otherwise (a control char gives
None in Rust, which unwrap_or(1) turns into 1, folded in here). -/
def charWidth (c : Char) : Nat :=
  let n := c.toNat
  if 0x300 ≤ n ∧ n ≤ 0x36F then 0
  else if (0x1100 ≤ n ∧ n ≤ 0x115F) ∨ (0x2E80 ≤ n ∧ n ≤ 0x303E)
      ∨ (0x3041 ≤ n ∧ n ≤ 0x33FF) ∨ (0x3400 ≤ n ∧ n ≤ 0x4DBF)
      ∨ (0x4E00 ≤ n ∧ n ≤ 0x9FFF) ∨ (0xAC00 ≤ n ∧ n ≤ 0xD7A3)
      ∨ (0xF900 ≤ n ∧ n ≤ 0xFAFF) ∨ (0xFF00 ≤ n ∧ n ≤ 0xFF60)
      ∨ (0x1F300 ≤ n ∧ n ≤ 0x1F64F) then 2
  else 1

/-- width(ch).unwrap_or(1).clamp(1, 2) from Grid::put_char. -/
def effWidth (c : Char) : Nat := min (max (charWidth c) 1) 2

/-- Embeds struct Grid. -/
structure Grid where
  rows : Nat
  cols : Nat
  cells : List (List Cell)
  cursor_x : Nat
  cursor_y : Nat
  scroll_top : Nat
  scroll_bot : Nat
  scrollback : List (List Cell)
  max_scrollback : Nat
  scroll_offset : Nat
deriving DecidableEq

/-- vec of cols default cells, as built by the source at several places. -/
def blankRow (cols : Nat) : List Cell := List.replicate cols Cell.default

/-- Embeds Grid::new. -/
def Grid.new (rows cols max_scrollback : Nat) : Grid :=
  { rows := rows, cols := cols,
    cells := List.replicate rows (blankRow cols),
    cursor_x := 0, cursor_y := 0,
    scroll_top := 0, scroll_bot := rows - 1,
    scrollback := [], max_scrollback := max_scrollback, scroll_offset := 0 }

/-- One iteration of the loop body of Grid::scroll_up: remove the row at
scroll_top, push it to scrollback (evicting the oldest row when the cap is
exceeded), insert a blank row at scroll_bot.  none models a panic of
Vec::remove or Vec::insert. -/
def Grid.scrollUpStep (g : Grid) : Option Grid :=
  if g.cells.isEmpty then some g
  else
    (vecRemove g.cells g.scroll_top).bind fun (evicted, rest) =>
      let sb := g.scrollback ++ [evicted]
      let sb := if g.max_scrollback < sb.length then sb.drop 1 else sb
      (vecInsert rest g.scroll_bot (blankRow g.cols)).map fun cells =>
        { g with cells := cells, scrollback := sb }

/-- Embeds Grid::scroll_up(n): n iterations of the loop body. -/
def Grid.scroll_up (g : Grid) : Nat → Option Grid
  | 0 => some g
  | n + 1 => g.scrollUpStep.bind fun g1 => g1.scroll_up n

/-- One iteration of the loop body of Grid::scroll_down: remove the row at
scroll_bot when in range, insert a blank row at scroll_top. -/
def Grid.scrollDownStep (g : Grid) : Option Grid :=
  let cells := if g.scroll_bot < g.cells.length then g.cells.eraseIdx g.scroll_bot else g.cells
  (vecInsert cells g.scroll_top (blankRow g.cols)).map fun cells =>
    { g with cells := cells }

/-- Embeds Grid::scroll_down(n). -/
def Grid.scroll_down (g : Grid) : Nat → Option Grid
  | 0 => some g
  | n + 1 => g.scrollDownStep.bind fun g1 => g1.scroll_down n

/-- Embeds Grid::newline. -/
def Grid.newline (g : Grid) : Option Grid :=
  if g.scroll_bot ≤ g.cursor_y then g.scroll_up 1
  else some { g with cursor_y := g.cursor_y + 1 }

/-- The write part of Grid::put_char after the wrap checks: store the glyph
cell at the cursor, the zero-width continuation cell when it fits, and
advance the cursor by the width. -/
def Grid.writeCell (g : Grid) (ch : Char) (fg bg : TermColor) (attrs : Attrs)
    (width : Nat) : Option Grid :=
  (setCell g.cells g.cursor_y g.cursor_x
      { ch := ch, fg := fg, bg := bg, attrs := attrs, width := width }).bind
    fun cells =>
      if width = 2 then
        let next := g.cursor_x + 1
        (if next < g.cols then
            setCell cells g.cursor_y next
              { ch := ' ', fg := fg, bg := bg, attrs := attrs, width := 0 }
          else some cells).map fun cells =>
          { g with cells := cells, cursor_x := g.cursor_x + 2 }
      else
        some { g with cells := cells, cursor_x := g.cursor_x + 1 }

/-- Embeds Grid::put_char. -/
def Grid.put_char (g : Grid) (ch : Char) (fg bg : TermColor) (attrs : Attrs) :
    Option Grid :=
  if g.rows ≤ g.cursor_y then some g
  else
    (if g.cols ≤ g.cursor_x then Grid.newline { g with cursor_x := 0 } else some g).bind
      fun g1 =>
        let width := effWidth ch
        if width = 2 ∧ g1.cols ≤ g1.cursor_x + 1 then
          (Grid.newline { g1 with cursor_x := 0 }).bind fun g2 =>
            if g2.rows ≤ g2.cursor_y then some g2
            else g2.writeCell ch fg bg attrs width
        else g1.writeCell ch fg bg attrs width

/-- Embeds Grid::erase_line. -/
def Grid.erase_line (g : Grid) (mode : Nat) : Option Grid :=
  if g.rows ≤ g.cursor_y then some g
  else
    match g.cells[g.cursor_y]? with
    | none => none
    | some row =>
      let cx := g.cursor_x
      let row' :=
        match mode with
        | 0 => row.take cx ++ List.replicate (row.length - cx) Cell.default
        | 1 => List.replicate (min (cx + 1) row.length) Cell.default ++ row.drop (cx + 1)
        | 2 => List.replicate row.length Cell.default
        | _ => row
      some { g with cells := g.cells.set g.cursor_y row' }

/-- Embeds Grid::erase_display. -/
def Grid.erase_display (g : Grid) (mode : Nat) : Option Grid :=
  match mode with
  | 0 =>
    (g.erase_line 0).bind fun g1 =>
      (eraseRows g1.cells (g1.cursor_y + 1) g1.rows).map fun cells =>
        { g1 with cells := cells }
  | 1 =>
    (eraseRows g.cells 0 g.cursor_y).bind fun cells =>
      Grid.erase_line { g with cells := cells } 1
  | 2 | 3 =>
    some { g with
      cells := g.cells.map fun row => List.replicate row.length Cell.default,
      cursor_x := 0, cursor_y := 0 }
  | _ => some g

/-- Embeds Grid::resize.  Vec::resize on each row pads with default cells or
truncates; the row count grows by new_rows - rows blank rows or truncates;
saturating_sub becomes Nat subtraction. -/
def Grid.resize (g : Grid) (new_rows new_cols : Nat) : Grid :=
  let cells := g.cells.map fun row =>
    row.take new_cols ++ List.replicate (new_cols - row.length) Cell.default
  let cells :=
    if g.rows < new_rows then
      cells ++ List.replicate (new_rows - g.rows) (blankRow new_cols)
    else cells.take new_rows
  { g with
    rows := new_rows, cols := new_cols, cells := cells,
    scroll_bot := new_rows - 1,
    cursor_x := min g.cursor_x (new_cols - 1),
    cursor_y := min g.cursor_y (new_rows - 1) }

/-- The pen part of struct Performer: current_fg, current_bg, current_attrs. -/
structure Pen where
  current_fg : TermColor
  current_bg : TermColor
  current_attrs : Attrs
deriving DecidableEq

/-- The pen of a fresh TerminalState: default colors, no attributes. -/
def Pen.default : Pen :=
  { current_fg := TermColor.Default, current_bg := TermColor.Default,
    current_attrs := Attrs.default }

/-- Embeds Performer::reset_attrs. -/
def reset_attrs (_pen : Pen) : Pen := Pen.default

/-- Embeds Performer::parse_ext.  The source advances the loop index i by
mutation; here the second component of the result is that advance (4 after
reading an RGB triple, 2 after reading a 256-color index).  On any other
sub-selector, or when a required token is missing, the source returns None
without touching i; here that is none.  The `as u8` casts become % 256. -/
def parse_ext (ps : List Nat) (i : Nat) : Option (TermColor × Nat) :=
  match ps[i + 1]? with
  | some 2 =>
    ps[i + 2]?.bind fun r =>
      ps[i + 3]?.bind fun g =>
        ps[i + 4]?.map fun b =>
          (TermColor.Rgb (r % 256) (g % 256) (b % 256), 4)
  | some 5 =>
    ps[i + 2]?.map fun idx => (TermColor.Ansi256 (idx % 256), 2)
  | _ => none

/-- The match arms of Performer::handle_sgr other than 38 and 48. -/
def sgrSimple (pen : Pen) (p : Nat) : Pen :=
  if p = 0 then reset_attrs pen
  else if p = 1 then { pen with current_attrs := { pen.current_attrs with bold := true } }
  else if p = 2 then { pen with current_attrs := { pen.current_attrs with dim := true } }
  else if p = 3 then { pen with current_attrs := { pen.current_attrs with italic := true } }
  else if p = 4 then { pen with current_attrs := { pen.current_attrs with underline := true } }
  else if p = 5 then { pen with current_attrs := { pen.current_attrs with blink := true } }
  else if p = 7 then { pen with current_attrs := { pen.current_attrs with reverse := true } }
  else if p = 8 then { pen with current_attrs := { pen.current_attrs with invisible := true } }
  else if p = 9 then { pen with current_attrs := { pen.current_attrs with strikeout := true } }
  else if p = 22 then { pen with current_attrs := { pen.current_attrs with bold := false, dim := false } }
  else if p = 23 then { pen with current_attrs := { pen.current_attrs with italic := false } }
  else if p = 24 then { pen with current_attrs := { pen.current_attrs with underline := false } }
  else if p = 25 then { pen with current_attrs := { pen.current_attrs with blink := false } }
  else if p = 27 then { pen with current_attrs := { pen.current_attrs with reverse := false } }
  else if p = 28 then { pen with current_attrs := { pen.current_attrs with invisible := false } }
  else if p = 29 then { pen with current_attrs := { pen.current_attrs with strikeout := false } }
  else if 30 ≤ p ∧ p ≤ 37 then { pen with current_fg := TermColor.Ansi (p - 30) }
  else if p = 39 then { pen with current_fg := TermColor.Default }
  else if 40 ≤ p ∧ p ≤ 47 then { pen with current_bg := TermColor.Ansi (p - 40) }
  else if p = 49 then { pen with current_bg := TermColor.Default }
  else if 90 ≤ p ∧ p ≤ 97 then { pen with current_fg := TermColor.Ansi (p - 90 + 8) }
  else if 100 ≤ p ∧ p ≤ 107 then { pen with current_bg := TermColor.Ansi (p - 100 + 8) }
  else pen

/-- The while loop of Performer::handle_sgr, i the loop index.  The first
Nat argument is fuel bounding the number of iterations: every iteration
advances i by at least one and the loop stops once i reaches the end, so
ps.length iterations always suffice and the fuel never runs out when the
loop is entered with fuel ps.length (made precise in sgrLoop_fuel below). -/
def sgrLoop (ps : List Nat) : Nat → Nat → Pen → Pen
  | 0, _, pen => pen
  | fuel + 1, i, pen =>
    if i < ps.length then
      let p := ps.getD i 0
      if p = 38 then
        match parse_ext ps i with
        | some (c, d) => sgrLoop ps fuel (i + d + 1) { pen with current_fg := c }
        | none => sgrLoop ps fuel (i + 1) pen
      else if p = 48 then
        match parse_ext ps i with
        | some (c, d) => sgrLoop ps fuel (i + d + 1) { pen with current_bg := c }
        | none => sgrLoop ps fuel (i + 1) pen
      else sgrLoop ps fuel (i + 1) (sgrSimple pen p)
    else pen

/-- Embeds Performer::handle_sgr. -/
def handle_sgr (ps : List Nat) (pen : Pen) : Pen :=
  if ps.isEmpty then reset_attrs pen else sgrLoop ps ps.length 0 pen

/-- Models std::str::from_utf8 applied to an OSC string payload: strict
UTF-8 decoding of a byte list, rejecting truncated sequences, stray
continuation bytes, overlong encodings, surrogates and values past
0x10FFFF; none models Err. -/
def decodeUtf8 : List Nat → Option String
  | [] => some ""
  | b :: rest =>
    if b < 0x80 then
      (decodeUtf8 rest).map fun s => String.mk (Char.ofNat b :: s.data)
    else if 0xC2 ≤ b ∧ b ≤ 0xDF then
      match rest with
      | c1 :: rest' =>
        if 0x80 ≤ c1 ∧ c1 ≤ 0xBF then
          (decodeUtf8 rest').map fun s =>
            String.mk (Char.ofNat ((b - 0xC0) * 64 + (c1 - 0x80)) :: s.data)
        else none
      | _ => none
    else if 0xE0 ≤ b ∧ b ≤ 0xEF then
      match rest with
      | c1 :: c2 :: rest' =>
        let n := (b - 0xE0) * 4096 + (c1 - 0x80) * 64 + (c2 - 0x80)
        if (0x80 ≤ c1 ∧ c1 ≤ 0xBF) ∧ (0x80 ≤ c2 ∧ c2 ≤ 0xBF)
            ∧ 0x800 ≤ n ∧ (n < 0xD800 ∨ 0xDFFF < n) then
          (decodeUtf8 rest').map fun s => String.mk (Char.ofNat n :: s.data)
        else none
      | _ => none
    else if 0xF0 ≤ b ∧ b ≤ 0xF4 then
      match rest with
      | c1 :: c2 :: c3 :: rest' =>
        let n := (b - 0xF0) * 262144 + (c1 - 0x80) * 4096 + (c2 - 0x80) * 64 + (c3 - 0x80)
        if (0x80 ≤ c1 ∧ c1 ≤ 0xBF) ∧ (0x80 ≤ c2 ∧ c2 ≤ 0xBF)
            ∧ (0x80 ≤ c3 ∧ c3 ≤ 0xBF) ∧ 0x10000 ≤ n ∧ n ≤ 0x10FFFF then
          (decodeUtf8 rest').map fun s => String.mk (Char.ofNat n :: s.data)
        else none
      | _ => none
    else none

/-- Embeds struct TerminalState together with the borrowed parts of struct
Performer: the grid, the persistent pen, and the window title.  The lexer
state lives in the pstate field (see PState below). -/
structure PerfState where
  grid : Grid
  pen : Pen
  title : String
deriving DecidableEq

/-- Performer::print: forward the decoded character to put_char with the
current pen. -/
def Performer.print (st : PerfState) (ch : Char) : Option PerfState :=
  (st.grid.put_char ch st.pen.current_fg st.pen.current_bg st.pen.current_attrs).map
    fun g => { st with grid := g }

/-- Embeds Performer::execute (C0 control bytes). -/
def Performer.execute (st : PerfState) (b : Nat) : Option PerfState :=
  if b = 0x0A ∨ b = 0x0B ∨ b = 0x0C then
    st.grid.newline.map fun g => { st with grid := g }
  else if b = 0x0D then
    some { st with grid := { st.grid with cursor_x := 0 } }
  else if b = 0x09 then
    some { st with grid := { st.grid with
      cursor_x := min ((st.grid.cursor_x / 8 + 1) * 8) (st.grid.cols - 1) } }
  else if b = 0x08 then
    some { st with grid := { st.grid with cursor_x := st.grid.cursor_x - 1 } }
  else some st

/-- ps.get(i).copied().unwrap_or(1).max(1), the pn closure of csi_dispatch
(and p1, which is pn 0). -/
def pnParam (ps : List Nat) (i : Nat) : Nat := max (ps.getD i 1) 1

/-- The 'P' arm of csi_dispatch: delete n characters at the cursor, shifting
the remaining row content left and filling the tail with default cells.
The source loops i in x..cols assigning row[i] from row[i + n] read before
any write reaches it, so a map over the original row is equivalent; the
loop panics (none) when the nonempty range x..cols leaves the row. -/
def deleteChars (row : List Cell) (x n cols : Nat) : Option (List Cell) :=
  if cols ≤ x then some row
  else if cols ≤ row.length then
    some (row.mapIdx fun i c =>
      if i < x ∨ cols ≤ i then c
      else if i + n < cols then row.getD (i + n) Cell.default
      else Cell.default)
  else none

/-- The '@' arm of csi_dispatch: insert n blank characters at the cursor,
shifting existing content right; the source loops i in (x..cols).rev()
assigning row[i] from row[i - n] before any write reaches it. -/
def insertBlanks (row : List Cell) (x n cols : Nat) : Option (List Cell) :=
  if cols ≤ x then some row
  else if cols ≤ row.length then
    some (row.mapIdx fun i c =>
      if i < x ∨ cols ≤ i then c
      else if x + n ≤ i then row.getD (i - n) Cell.default
      else Cell.default)
  else none

/-- Embeds Performer::csi_dispatch.  ps is the collected parameter list
(first subparameter of each vte param); action the final byte. -/
def csi_dispatch (st : PerfState) (ps : List Nat) (action : Char) :
    Option PerfState :=
  if action = 'A' then
    some { st with grid := { st.grid with
      cursor_y := st.grid.cursor_y - pnParam ps 0 } }
  else if action = 'B' then
    some { st with grid := { st.grid with
      cursor_y := min (st.grid.cursor_y + pnParam ps 0) (st.grid.rows - 1) } }
  else if action = 'C' then
    some { st with grid := { st.grid with
      cursor_x := min (st.grid.cursor_x + pnParam ps 0) (st.grid.cols - 1) } }
  else if action = 'D' then
    some { st with grid := { st.grid with
      cursor_x := st.grid.cursor_x - pnParam ps 0 } }
  else if action = 'H' ∨ action = 'f' then
    some { st with grid := { st.grid with
      cursor_y := min (pnParam ps 0 - 1) (st.grid.rows - 1),
      cursor_x := min (pnParam ps 1 - 1) (st.grid.cols - 1) } }
  else if action = 'J' then
    (st.grid.erase_display (ps.headD 0 % 256)).map fun g => { st with grid := g }
  else if action = 'K' then
    (st.grid.erase_line (ps.headD 0 % 256)).map fun g => { st with grid := g }
  else if action = 'S' ∨ action = 'L' then
    (st.grid.scroll_up (pnParam ps 0)).map fun g => { st with grid := g }
  else if action = 'T' ∨ action = 'M' then
    (st.grid.scroll_down (pnParam ps 0)).map fun g => { st with grid := g }
  else if action = 'm' then
    some { st with pen := handle_sgr ps st.pen }
  else if action = 'r' then
    some { st with grid := { st.grid with
      scroll_top := pnParam ps 0 - 1,
      scroll_bot := min (pnParam ps 1 - 1) (st.grid.rows - 1) } }
  else if action = 'd' then
    some { st with grid := { st.grid with
      cursor_y := min (ps.headD 0 - 1) (st.grid.rows - 1) } }
  else if action = 'G' then
    some { st with grid := { st.grid with
      cursor_x := min (ps.headD 0 - 1) (st.grid.cols - 1) } }
  else if action = 'P' then
    if st.grid.cursor_y < st.grid.rows then
      match st.grid.cells[st.grid.cursor_y]? with
      | some row =>
        (deleteChars row st.grid.cursor_x (pnParam ps 0) st.grid.cols).map fun row' =>
          { st with grid := { st.grid with
            cells := st.grid.cells.set st.grid.cursor_y row' } }
      | none => none
    else some st
  else if action = '@' then
    if st.grid.cursor_y < st.grid.rows then
      match st.grid.cells[st.grid.cursor_y]? with
      | some row =>
        (insertBlanks row st.grid.cursor_x (pnParam ps 0) st.grid.cols).map fun row' =>
          { st with grid := { st.grid with
            cells := st.grid.cells.set st.grid.cursor_y row' } }
      | none => none
    else some st
  else some st

/-- Embeds Performer::osc_dispatch: params are the byte strings between the
semicolons; codes 0 and 2 set the title from the UTF-8 decoding of the
second param, everything else is ignored. -/
def osc_dispatch (st : PerfState) (params : List (List Nat)) : PerfState :=
  match params with
  | p0 :: p1 :: _ =>
    if p0 = [0x30] ∨ p0 = [0x32] then
      match decodeUtf8 p1 with
      | some t => { st with title := t }
      | none => st
    else st
  | _ => st

/-- Embeds Performer::esc_dispatch: only ESC M (reverse index) acts. -/
def esc_dispatch (st : PerfState) (b : Nat) : Option PerfState :=
  if b = 0x4D then
    if st.grid.cursor_y ≤ st.grid.scroll_top then
      st.grid.scrollDownStep.map fun g => { st with grid := g }
    else
      some { st with grid := { st.grid with cursor_y := st.grid.cursor_y - 1 } }
  else some st

/-- Modelled from the spec: the lexer states of the vte parser driven by
TerminalState::process_bytes (the vte crate is a dependency, not part of
this repository).  States follow section 4.2: ground, escape, CSI
parameter collection, OSC string collection (with a pending-ESC substate
for the ST terminator), inert DCS, and a UTF-8 continuation state. -/
inductive PState
  | ground
  | escape
  | csiP (params : List Nat) (cur : Nat) (seen : Bool)
  | oscP (done : List (List Nat)) (cur : List Nat)
  | oscEsc (done : List (List Nat)) (cur : List Nat)
  | dcs
  | dcsEsc
  | utf8 (need : Nat) (acc : Nat)
deriving DecidableEq

/-- The full session state of struct TerminalState: grid, pen and title
(in the PerfState) plus the persistent lexer state. -/
structure TermState where
  perf : PerfState
  pstate : PState
deriving DecidableEq

/-- Embeds TerminalState::new. -/
def TermState.new (rows cols max_scrollback : Nat) : TermState :=
  { perf := { grid := Grid.new rows cols max_scrollback, pen := Pen.default,
              title := "Spiltixal" },
    pstate := PState.ground }

/-- Modelled from the spec: printing one decoded codepoint from ground
state (vte print action). -/
def printAction (st : TermState) (ch : Char) : Option TermState :=
  (Performer.print st.perf ch).map fun p => { st with perf := p }

/-- Modelled from the spec: handling of one byte in ground state: C0
controls execute, printable ASCII prints, lead bytes open a UTF-8
sequence, ESC enters escape state; an invalid lead byte prints the
replacement character. -/
def groundByte (st : TermState) (b : Nat) : Option TermState :=
  if b = 0x1B then some { st with pstate := PState.escape }
  else if b < 0x20 then
    (Performer.execute st.perf b).map fun p => { st with perf := p }
  else if b < 0x7F then printAction st (Char.ofNat b)
  else if b = 0x7F then some st
  else if 0xC2 ≤ b ∧ b ≤ 0xDF then some { st with pstate := PState.utf8 1 (b - 0xC0) }
  else if 0xE0 ≤ b ∧ b ≤ 0xEF then some { st with pstate := PState.utf8 2 (b - 0xE0) }
  else if 0xF0 ≤ b ∧ b ≤ 0xF4 then some { st with pstate := PState.utf8 3 (b - 0xF0) }
  else printAction st (Char.ofNat 0xFFFD)

/-- Modelled from the spec: handling of one byte in escape state. -/
def escapeByte (st : TermState) (b : Nat) : Option TermState :=
  if b = 0x5B then some { st with pstate := PState.csiP [] 0 false }
  else if b = 0x5D then some { st with pstate := PState.oscP [] [] }
  else if b = 0x50 then some { st with pstate := PState.dcs }
  else if b = 0x1B then some st
  else if b < 0x20 then
    (Performer.execute st.perf b).map fun p => { st with perf := p }
  else if 0x30 ≤ b ∧ b ≤ 0x7E then
    (esc_dispatch st.perf b).map fun p => { st with perf := p, pstate := PState.ground }
  else some st

/-- Modelled from the spec: OSC termination (BEL or ST) dispatches the
collected byte strings. -/
def oscEnd (st : TermState) (done : List (List Nat)) (cur : List Nat) : TermState :=
  { st with perf := osc_dispatch st.perf (done ++ [cur]), pstate := PState.ground }

/-- Modelled from the spec: one byte of the vte state machine.  A none
result models a panic inside a grid operation reached from a dispatch. -/
def advance (st : TermState) (b : Nat) : Option TermState :=
  match st.pstate with
  | PState.ground => groundByte st b
  | PState.escape => escapeByte st b
  | PState.csiP params cur seen =>
    if b = 0x1B then some { st with pstate := PState.escape }
    else if b = 0x18 ∨ b = 0x1A then some { st with pstate := PState.ground }
    else if b < 0x20 then
      (Performer.execute st.perf b).map fun p => { st with perf := p }
    else if 0x30 ≤ b ∧ b ≤ 0x39 then
      some { st with pstate := PState.csiP params (min (cur * 10 + (b - 0x30)) 65535) true }
    else if b = 0x3B then
      some { st with pstate := PState.csiP (params ++ [cur]) 0 true }
    else if 0x40 ≤ b ∧ b ≤ 0x7E then
      let ps := if seen then params ++ [cur] else []
      (csi_dispatch st.perf ps (Char.ofNat b)).map fun p =>
        { st with perf := p, pstate := PState.ground }
    else some st
  | PState.oscP done cur =>
    if b = 0x07 then some (oscEnd st done cur)
    else if b = 0x1B then some { st with pstate := PState.oscEsc done cur }
    else if b = 0x3B then some { st with pstate := PState.oscP (done ++ [cur]) [] }
    else some { st with pstate := PState.oscP done (cur ++ [b]) }
  | PState.oscEsc done cur =>
    if b = 0x5C then some (oscEnd st done cur)
    else escapeByte (oscEnd st done cur) b
  | PState.dcs =>
    if b = 0x1B then some { st with pstate := PState.dcsEsc } else some st
  | PState.dcsEsc =>
    if b = 0x5C then some { st with pstate := PState.ground }
    else escapeByte { st with pstate := PState.ground } b
  | PState.utf8 need acc =>
    if 0x80 ≤ b ∧ b ≤ 0xBF then
      let acc' := acc * 64 + (b - 0x80)
      match need with
      | 1 =>
        if acc'.isValidChar then
          printAction { st with pstate := PState.ground } (Char.ofNat acc')
        else printAction { st with pstate := PState.ground } (Char.ofNat 0xFFFD)
      | n + 1 => some { st with pstate := PState.utf8 n acc' }
      | 0 => groundByte { st with pstate := PState.ground } b
    else
      (printAction { st with pstate := PState.ground } (Char.ofNat 0xFFFD)).bind
        fun st' => groundByte st' b

/-- Embeds TerminalState::process_bytes: drive every byte of the chunk
through the parser against the grid; pen, title and lexer state persist in
the TermState. -/
def TermState.process_bytes (st : TermState) (bytes : List Nat) : Option TermState :=
  bytes.foldlM advance st

/-- Embeds struct SearchMatch.  In the source row, col and len index into
the UTF-8 byte representation of the row string (str::find returns byte
offsets and String::len counts bytes). -/
structure SearchMatch where
  row : Nat
  col : Nat
  len : Nat
deriving DecidableEq

/-- Embeds struct SearchState.  The query is kept as the character list of
the Rust String. -/
structure SearchState where
  query : List Char
  matches' : List SearchMatch
  current_idx : Nat
  active : Bool
deriving DecidableEq

/-- The UTF-8 encoding of one character, exactly as a Rust String stores
it (byte values as Nats). -/
def utf8EncodeChar (c : Char) : List Nat :=
  let n := c.toNat
  if n < 0x80 then [n]
  else if n < 0x800 then [0xC0 + n / 64, 0x80 + n % 64]
  else if n < 0x10000 then
    [0xE0 + n / 4096, 0x80 + n / 64 % 64, 0x80 + n % 64]
  else
    [0xF0 + n / 262144, 0x80 + n / 4096 % 64, 0x80 + n / 64 % 64,
      0x80 + n % 64]

/-- The byte contents of the Rust String holding the given characters. -/
def strBytes (s : List Char) : List Nat := s.flatMap utf8EncodeChar

/-- Rust str::is_char_boundary on the string holding the given characters:
a byte index is a boundary exactly when it is the total byte length of a
prefix of the character list (false past the end of the string). -/
def isCharBoundary : List Char → Nat → Bool
  | _, 0 => true
  | [], _ + 1 => false
  | c :: cs, i + 1 =>
    if i + 1 < (utf8EncodeChar c).length then false
    else isCharBoundary cs (i + 1 - (utf8EncodeChar c).length)

/-- The Rust slice expression lower[start..]: the byte suffix when start
is a character boundary; none (an index panic) otherwise. -/
def sliceFrom (s : List Char) (start : Nat) : Option (List Nat) :=
  if isCharBoundary s start then some ((strBytes s).drop start) else none

/-- Byte-level str::find: the least byte offset at which the needle's
bytes occur in the haystack, none when they never do.  (A valid-UTF-8
needle can only match at a character boundary of a valid-UTF-8 haystack,
so byte matching agrees with str::find.) -/
def byteFind (needle : List Nat) : List Nat → Option Nat
  | [] => if needle = [] then some 0 else none
  | b :: t =>
    if needle.isPrefixOf (b :: t) then some 0
    else (byteFind needle t).map (fun i => i + 1)

/-- The while let loop of SearchState::search on one row, at the byte
level: slice the lowercased line from the scan position (a panic when that
position is not a character boundary — which happens one iteration after
any match starting with a multi-byte character, because the loop resumes
at abs + 1 bytes), find the query bytes in the slice, record the byte
column and byte length, resume one byte past the match start.  The fuel
only bounds the iteration count: the scan position strictly increases and
slicing fails beyond the byte length, so byte length + 2 iterations
always suffice. -/
def scanRowBytes (lower : List Char) (q : List Nat) :
    Nat → Nat → Option (List (Nat × Nat))
  | 0, _ => none
  | fuel + 1, start =>
    match sliceFrom lower start with
    | none => none
    | some rest =>
      match byteFind q rest with
      | none => some []
      | some pos =>
        match scanRowBytes lower q fuel (start + pos + 1) with
        | none => none
        | some ms => some ((start + pos, q.length) :: ms)

/-- The row loop of SearchState::search: build each row's string from its
cells' characters, lowercase it, scan it (propagating the panic), with
rows numbered from 0 across scrollback then grid.  lc is the model of
String::to_lowercase (see SearchState.search). -/
def searchRows (lc : List Char → List Char) (q : List Nat) :
    List (List Cell) → Nat → Option (List SearchMatch)
  | [], _ => some []
  | row :: rest, r =>
    let lower := lc (row.map fun c => c.ch)
    match scanRowBytes lower q ((strBytes lower).length + 2) 0 with
    | none => none
    | some ms =>
      match searchRows lc q rest (r + 1) with
      | none => none
      | some tail =>
        some ((ms.map fun p => { row := r, col := p.1, len := p.2 }) ++ tail)

/-- Embeds SearchState::search: clear the matches and reset the current
index; an empty query stops there; otherwise lowercase the query, scan
every row of scrollback then live grid and collect the byte-indexed
matches, propagating the slicing panic as none.  Rust lowercases through
String::to_lowercase, a standard-library dependency whose full Unicode
case-mapping table is outside this repository: the whole-string mapping is
taken as the parameter lc (a List Char → List Char function, so
one-to-many and length-changing mappings are representable), and the C8
theorem below holds for every lc that agrees with Unicode lowercasing on
the concrete caseless strings involved. -/
def SearchState.search (lc : List Char → List Char) (st : SearchState)
    (scrollback grid : List (List Cell)) : Option SearchState :=
  if st.query = [] then some { st with matches' := [], current_idx := 0 }
  else
    let q := strBytes (lc st.query)
    match searchRows lc q (scrollback ++ grid) 0 with
    | none => none
    | some ms => some { st with matches' := ms, current_idx := 0 }

/-- Embeds SearchState::next. -/
def SearchState.next (st : SearchState) : SearchState :=
  if st.matches'.isEmpty then st
  else { st with current_idx := (st.current_idx + 1) % st.matches'.length }

/-- Embeds SearchState::prev. -/
def SearchState.prev (st : SearchState) : SearchState :=
  if st.matches'.isEmpty then st
  else if st.current_idx = 0 then { st with current_idx := st.matches'.length - 1 }
  else { st with current_idx := st.current_idx - 1 }

/-- The grid-and-interpreter operations named by the invariants claim. -/
inductive GOp
  | put (ch : Char) (fg bg : TermColor) (attrs : Attrs)
  | newline
  | scrollUp (n : Nat)
  | scrollDown (n : Nat)
  | eraseLine (mode : Nat)
  | eraseDisplay (mode : Nat)
  | resizeOp (r c : Nat)
  | csi (ps : List Nat) (action : Char)
  | execC0 (b : Nat)
  | escByte (b : Nat)
deriving DecidableEq

/-- Apply one operation to the session state through the embedded source
functions. -/
def applyGOp (st : PerfState) : GOp → Option PerfState
  | GOp.put ch fg bg attrs =>
    (st.grid.put_char ch fg bg attrs).map fun g => { st with grid := g }
  | GOp.newline => st.grid.newline.map fun g => { st with grid := g }
  | GOp.scrollUp n => (st.grid.scroll_up n).map fun g => { st with grid := g }
  | GOp.scrollDown n => (st.grid.scroll_down n).map fun g => { st with grid := g }
  | GOp.eraseLine m => (st.grid.erase_line m).map fun g => { st with grid := g }
  | GOp.eraseDisplay m => (st.grid.erase_display m).map fun g => { st with grid := g }
  | GOp.resizeOp r c => some { st with grid := st.grid.resize r c }
  | GOp.csi ps action => csi_dispatch st ps action
  | GOp.execC0 b => Performer.execute st b
  | GOp.escByte b => esc_dispatch st b

/-- Apply a sequence of operations left to right. -/
def applySeq (st : PerfState) : List GOp → Option PerfState
  | [] => some st
  | op :: ops => (applyGOp st op).bind fun st1 => applySeq st1 ops

/-- The parameter constraints of the amended invariants claim: a scroll
region set by CSI r must have top at most bottom and top within the grid
height, and a resize must keep at least one row, at least two columns, and
a row count above the current scroll_top (the source re-clamps scroll_bot
but not scroll_top on resize). -/
def opOK (st : PerfState) : GOp → Bool
  | GOp.csi ps action =>
    if action = 'r' then
      decide (pnParam ps 0 ≤ pnParam ps 1 ∧ pnParam ps 0 ≤ st.grid.rows)
    else true
  | GOp.resizeOp r c =>
    decide (1 ≤ r ∧ 2 ≤ c ∧ st.grid.scroll_top < r)
  | _ => true

/-- The constraints of opOK threaded through a whole operation sequence. -/
def seqOK (st : PerfState) : List GOp → Bool
  | [] => true
  | op :: ops =>
    opOK st op &&
      (match applyGOp st op with
       | some st1 => seqOK st1 ops
       | none => true)

/-- The grid invariants of the claim (with the two amendments: at least
two columns, and a consistent row count recorded alongside): cursor_x at
most cols, cursor_y below rows, scroll_top at most scroll_bot below rows,
scrollback within max_scrollback, and every row of exactly cols cells. -/
structure GridInv (g : Grid) : Prop where
  rows_pos : 1 ≤ g.rows
  cols_two : 2 ≤ g.cols
  cells_len : g.cells.length = g.rows
  row_len : ∀ r ∈ g.cells, r.length = g.cols
  cx_le : g.cursor_x ≤ g.cols
  cy_lt : g.cursor_y < g.rows
  top_le_bot : g.scroll_top ≤ g.scroll_bot
  bot_lt : g.scroll_bot < g.rows
  sb_le : g.scrollback.length ≤ g.max_scrollback

/-- Printing the same character n times through put_char (the repetition
used by the print-cols-characters property). -/
def printN (g : Grid) (ch : Char) (fg bg : TermColor) (attrs : Attrs) :
    Nat → Option Grid
  | 0 => some g
  | n + 1 => (g.put_char ch fg bg attrs).bind fun g1 => printN g1 ch fg bg attrs n

/-! Helper lemmas. -/

theorem getElem?_eq_some_getD {l : List α} {i : Nat} (h : i < l.length) (d : α) :
    l[i]? = some (l.getD i d) := by
  simp [List.getD_eq_getElem?_getD, List.getElem?_eq_getElem h]


/-- The explicit result of one scroll-up iteration on an invariant grid. -/
theorem scrollUpStep_eq {g : Grid} (hInv : GridInv g) :
    g.scrollUpStep = some { g with
      cells := List.insertIdx g.scroll_bot (blankRow g.cols) (g.cells.eraseIdx g.scroll_top),
      scrollback :=
        if g.max_scrollback < g.scrollback.length + 1 then
          (g.scrollback ++ [g.cells.getD g.scroll_top []]).drop 1
        else g.scrollback ++ [g.cells.getD g.scroll_top []] } := by
  have htop : g.scroll_top < g.cells.length := by
    rw [hInv.cells_len]; exact lt_of_le_of_lt hInv.top_le_bot hInv.bot_lt
  have hbot : g.scroll_bot ≤ (g.cells.eraseIdx g.scroll_top).length := by
    rw [List.length_eraseIdx, if_pos htop, hInv.cells_len]
    have := hInv.bot_lt
    omega
  have hne' : g.cells.isEmpty = false := by
    cases hc : g.cells
    · rw [hc] at htop; simp at htop
    · rfl
  unfold Grid.scrollUpStep vecRemove vecInsert
  rw [getElem?_eq_some_getD htop [], hne']
  simp [hbot]

theorem scrollUpStep_inv {g g' : Grid} (hInv : GridInv g)
    (h : g.scrollUpStep = some g') :
    GridInv g' ∧ g'.rows = g.rows ∧ g'.cols = g.cols ∧
      g'.cursor_x = g.cursor_x ∧ g'.cursor_y = g.cursor_y ∧
      g'.scroll_top = g.scroll_top ∧ g'.scroll_bot = g.scroll_bot ∧
      g'.max_scrollback = g.max_scrollback := by
  rw [scrollUpStep_eq hInv] at h
  have htop : g.scroll_top < g.cells.length := by
    rw [hInv.cells_len]; exact lt_of_le_of_lt hInv.top_le_bot hInv.bot_lt
  have herase : (g.cells.eraseIdx g.scroll_top).length = g.rows - 1 := by
    rw [List.length_eraseIdx, if_pos htop, hInv.cells_len]
  have hbot : g.scroll_bot ≤ (g.cells.eraseIdx g.scroll_top).length := by
    rw [herase]
    have := hInv.bot_lt
    omega
  cases h
  refine ⟨⟨hInv.rows_pos, hInv.cols_two, ?_, ?_, hInv.cx_le, hInv.cy_lt,
    hInv.top_le_bot, hInv.bot_lt, ?_⟩, rfl, rfl, rfl, rfl, rfl, rfl, rfl⟩
  · simp only [List.length_insertIdx _ _ hbot, herase]
    have := hInv.rows_pos
    omega
  · intro r hr
    rcases (List.mem_insertIdx hbot).mp hr with h | h
    · cases h
      simp [blankRow]
    · exact hInv.row_len r (List.eraseIdx_subset _ _ h)
  · have := hInv.sb_le
    split <;> simp <;> omega

theorem scroll_up_inv {g : Grid} (hInv : GridInv g) (n : Nat) :
    ∃ g', g.scroll_up n = some g' ∧ GridInv g' ∧ g'.rows = g.rows ∧
      g'.cols = g.cols ∧ g'.cursor_x = g.cursor_x ∧ g'.cursor_y = g.cursor_y ∧
      g'.scroll_top = g.scroll_top ∧ g'.scroll_bot = g.scroll_bot ∧
      g'.max_scrollback = g.max_scrollback := by
  induction n generalizing g with
  | zero => exact ⟨g, rfl, hInv, rfl, rfl, rfl, rfl, rfl, rfl, rfl⟩
  | succ n ih =>
    have hstep := scrollUpStep_eq hInv
    obtain ⟨hInv1, h1, h2, h3, h4, h5, h6, h7⟩ := scrollUpStep_inv hInv hstep
    obtain ⟨g', hg', hInv', e1, e2, e3, e4, e5, e6, e7⟩ := ih hInv1
    refine ⟨g', ?_, hInv', by omega, by omega, by omega, by omega, by omega, by omega, by omega⟩
    show Grid.scroll_up g (n + 1) = some g'
    unfold Grid.scroll_up
    rw [hstep]
    simpa using hg'

/-- The explicit result of one scroll-down iteration on an invariant grid. -/
theorem scrollDownStep_eq {g : Grid} (hInv : GridInv g) :
    g.scrollDownStep = some { g with
      cells := List.insertIdx g.scroll_top (blankRow g.cols)
        (g.cells.eraseIdx g.scroll_bot) } := by
  have hbot : g.scroll_bot < g.cells.length := by
    rw [hInv.cells_len]; exact hInv.bot_lt
  have htop : g.scroll_top ≤ (g.cells.eraseIdx g.scroll_bot).length := by
    rw [List.length_eraseIdx, if_pos hbot, hInv.cells_len]
    have := hInv.top_le_bot
    have := hInv.bot_lt
    omega
  unfold Grid.scrollDownStep vecInsert
  rw [if_pos hbot]
  simp [htop]

theorem scrollDownStep_inv {g g' : Grid} (hInv : GridInv g)
    (h : g.scrollDownStep = some g') :
    GridInv g' ∧ g'.rows = g.rows ∧ g'.cols = g.cols ∧
      g'.cursor_x = g.cursor_x ∧ g'.cursor_y = g.cursor_y ∧
      g'.scroll_top = g.scroll_top ∧ g'.scroll_bot = g.scroll_bot ∧
      g'.max_scrollback = g.max_scrollback ∧ g'.scrollback = g.scrollback := by
  rw [scrollDownStep_eq hInv] at h
  have hbot : g.scroll_bot < g.cells.length := by
    rw [hInv.cells_len]; exact hInv.bot_lt
  have herase : (g.cells.eraseIdx g.scroll_bot).length = g.rows - 1 := by
    rw [List.length_eraseIdx, if_pos hbot, hInv.cells_len]
  have htop : g.scroll_top ≤ (g.cells.eraseIdx g.scroll_bot).length := by
    rw [herase]
    have := hInv.top_le_bot
    have := hInv.bot_lt
    omega
  cases h
  refine ⟨⟨hInv.rows_pos, hInv.cols_two, ?_, ?_, hInv.cx_le, hInv.cy_lt,
    hInv.top_le_bot, hInv.bot_lt, hInv.sb_le⟩, rfl, rfl, rfl, rfl, rfl, rfl, rfl, rfl⟩
  · simp only [List.length_insertIdx _ _ htop, herase]
    have := hInv.rows_pos
    omega
  · intro r hr
    rcases (List.mem_insertIdx htop).mp hr with h | h
    · cases h
      simp [blankRow]
    · exact hInv.row_len r (List.eraseIdx_subset _ _ h)

theorem scroll_down_inv {g : Grid} (hInv : GridInv g) (n : Nat) :
    ∃ g', g.scroll_down n = some g' ∧ GridInv g' ∧ g'.rows = g.rows ∧
      g'.cols = g.cols ∧ g'.cursor_x = g.cursor_x ∧ g'.cursor_y = g.cursor_y ∧
      g'.scroll_top = g.scroll_top ∧ g'.scroll_bot = g.scroll_bot ∧
      g'.max_scrollback = g.max_scrollback := by
  induction n generalizing g with
  | zero => exact ⟨g, rfl, hInv, rfl, rfl, rfl, rfl, rfl, rfl, rfl⟩
  | succ n ih =>
    have hstep := scrollDownStep_eq hInv
    obtain ⟨hInv1, h1, h2, h3, h4, h5, h6, h7, _⟩ := scrollDownStep_inv hInv hstep
    obtain ⟨g', hg', hInv', e1, e2, e3, e4, e5, e6, e7⟩ := ih hInv1
    refine ⟨g', ?_, hInv', by omega, by omega, by omega, by omega, by omega, by omega, by omega⟩
    show Grid.scroll_down g (n + 1) = some g'
    unfold Grid.scroll_down
    rw [hstep]
    simpa using hg'

theorem newline_inv {g : Grid} (hInv : GridInv g) :
    ∃ g', g.newline = some g' ∧ GridInv g' ∧ g'.rows = g.rows ∧
      g'.cols = g.cols ∧ g'.cursor_x = g.cursor_x ∧
      (g.scroll_bot ≤ g.cursor_y → g'.cursor_y = g.cursor_y) ∧
      (g.cursor_y < g.scroll_bot → g'.cursor_y = g.cursor_y + 1) ∧
      g'.scroll_top = g.scroll_top ∧ g'.scroll_bot = g.scroll_bot ∧
      g'.max_scrollback = g.max_scrollback := by
  unfold Grid.newline
  by_cases hc : g.scroll_bot ≤ g.cursor_y
  · rw [if_pos hc]
    obtain ⟨g', hg', hInv', e1, e2, e3, e4, e5, e6, e7⟩ := scroll_up_inv hInv 1
    exact ⟨g', hg', hInv', e1, e2, e3, fun _ => e4, fun hlt => by omega, e5, e6, e7⟩
  · rw [if_neg hc]
    refine ⟨_, rfl, ⟨hInv.rows_pos, hInv.cols_two, hInv.cells_len, hInv.row_len,
      hInv.cx_le, ?_, hInv.top_le_bot, hInv.bot_lt, hInv.sb_le⟩,
      rfl, rfl, rfl, fun hge => by omega, fun _ => rfl, rfl, rfl, rfl⟩
    simp only
    have := hInv.bot_lt
    omega

theorem mem_of_getElemQ {l : List α} {i : Nat} {a : α} (h : l[i]? = some a) :
    a ∈ l := by
  obtain ⟨hlt, he⟩ := List.getElem?_eq_some.mp h
  exact he ▸ List.getElem_mem hlt

theorem rowlen_of_getElemQ {g : Grid} (hInv : GridInv g) {y : Nat}
    {row : List Cell} (h : g.cells[y]? = some row) : row.length = g.cols :=
  hInv.row_len row (mem_of_getElemQ h)

theorem setCell_eq {cells : List (List Cell)} {y x : Nat} {v : Cell}
    {row : List Cell} (h : cells[y]? = some row) (hx : x < row.length) :
    setCell cells y x v = some (cells.set y (row.set x v)) := by
  simp [setCell, h, hx]

theorem writeCell_inv {g : Grid} (hInv : GridInv g) (ch : Char)
    (fg bg : TermColor) (attrs : Attrs) (width : Nat)
    (hx : g.cursor_x < g.cols)
    (hw : width = 1 ∨ (width = 2 ∧ g.cursor_x + 1 < g.cols)) :
    ∃ g', g.writeCell ch fg bg attrs width = some g' ∧ GridInv g' ∧
      g'.rows = g.rows ∧ g'.cols = g.cols ∧ g'.cursor_y = g.cursor_y ∧
      g'.cursor_x = g.cursor_x + width ∧
      g'.scroll_top = g.scroll_top ∧ g'.scroll_bot = g.scroll_bot ∧
      g'.max_scrollback = g.max_scrollback ∧ g'.scrollback = g.scrollback := by
  have hy : g.cursor_y < g.cells.length := by rw [hInv.cells_len]; exact hInv.cy_lt
  obtain ⟨row, hrow⟩ : ∃ row, g.cells[g.cursor_y]? = some row := by
    rw [getElem?_eq_some_getD hy []]; exact ⟨_, rfl⟩
  have hrl : row.length = g.cols := rowlen_of_getElemQ hInv hrow
  have hset1 : setCell g.cells g.cursor_y g.cursor_x
      { ch := ch, fg := fg, bg := bg, attrs := attrs, width := width } =
      some (g.cells.set g.cursor_y (row.set g.cursor_x
        { ch := ch, fg := fg, bg := bg, attrs := attrs, width := width })) :=
    setCell_eq hrow (by omega)
  have hlen1 : ∀ v : Cell, (g.cells.set g.cursor_y (row.set g.cursor_x v)).length = g.rows := by
    intro v
    rw [List.length_set, hInv.cells_len]
  have hmem1 : ∀ (v : Cell) (r : List Cell),
      r ∈ g.cells.set g.cursor_y (row.set g.cursor_x v) → r.length = g.cols := by
    intro v r hr
    rcases List.mem_or_eq_of_mem_set hr with h | h
    · exact hInv.row_len r h
    · rw [h, List.length_set, hrl]
  unfold Grid.writeCell
  rw [hset1]
  rcases hw with hw | ⟨hw, hlt⟩
  · subst hw
    simp only [Option.some_bind]
    rw [if_neg (by omega)]
    refine ⟨_, rfl, ⟨hInv.rows_pos, hInv.cols_two, hlen1 _, hmem1 _, ?_,
      hInv.cy_lt, hInv.top_le_bot, hInv.bot_lt, hInv.sb_le⟩,
      rfl, rfl, rfl, rfl, rfl, rfl, rfl, rfl⟩
    simp only
    omega
  · subst hw
    simp only [Option.some_bind, if_true]
    rw [if_pos hlt]
    set row1 := row.set g.cursor_x
      { ch := ch, fg := fg, bg := bg, attrs := attrs, width := 2 } with hrow1
    have hrow1q : (g.cells.set g.cursor_y row1)[g.cursor_y]? = some row1 := by
      rw [List.getElem?_set]
      rw [if_pos rfl, if_pos (by omega)]
    have hset2 : setCell (g.cells.set g.cursor_y row1) g.cursor_y (g.cursor_x + 1)
        { ch := ' ', fg := fg, bg := bg, attrs := attrs, width := 0 } =
        some ((g.cells.set g.cursor_y row1).set g.cursor_y (row1.set (g.cursor_x + 1)
          { ch := ' ', fg := fg, bg := bg, attrs := attrs, width := 0 })) :=
      setCell_eq hrow1q (by rw [hrow1, List.length_set]; omega)
    rw [hset2]
    refine ⟨_, rfl, ⟨hInv.rows_pos, hInv.cols_two, ?_, ?_, ?_,
      hInv.cy_lt, hInv.top_le_bot, hInv.bot_lt, hInv.sb_le⟩,
      rfl, rfl, rfl, rfl, rfl, rfl, rfl, rfl⟩
    · rw [List.length_set, List.length_set, hInv.cells_len]
    · intro r hr
      rcases List.mem_or_eq_of_mem_set hr with h | h
      · exact hmem1 _ r h
      · rw [h, List.length_set, hrow1, List.length_set, hrl]
    · simp only
      omega

theorem effWidth_cases (c : Char) : effWidth c = 1 ∨ effWidth c = 2 := by
  unfold effWidth
  omega

theorem gridInv_cx_zero {g : Grid} (hInv : GridInv g) :
    GridInv { g with cursor_x := 0 } :=
  ⟨hInv.rows_pos, hInv.cols_two, hInv.cells_len, hInv.row_len, Nat.zero_le _,
    hInv.cy_lt, hInv.top_le_bot, hInv.bot_lt, hInv.sb_le⟩

theorem put_char_inv {g : Grid} (hInv : GridInv g) (ch : Char)
    (fg bg : TermColor) (attrs : Attrs) :
    ∃ g', g.put_char ch fg bg attrs = some g' ∧ GridInv g' ∧
      g'.rows = g.rows ∧ g'.cols = g.cols ∧
      g'.scroll_top = g.scroll_top ∧ g'.scroll_bot = g.scroll_bot ∧
      g'.max_scrollback = g.max_scrollback := by
  unfold Grid.put_char
  rw [if_neg (by have := hInv.cy_lt; omega)]
  by_cases hwx : g.cols ≤ g.cursor_x
  · rw [if_pos hwx]
    obtain ⟨g1, hg1, hInv1, e1, e2, e3, _, _, e6, e7, e8⟩ :=
      newline_inv (gridInv_cx_zero hInv)
    rw [hg1]
    simp only [Option.some_bind]
    have hx1 : g1.cursor_x = 0 := by simpa using e3
    have hcols1 : g1.cols = g.cols := by simpa using e2
    rw [if_neg (by
      rintro ⟨-, hc⟩
      rw [hx1, hcols1] at hc
      have := hInv.cols_two
      omega)]
    obtain ⟨g', hg', hInv', f1, f2, f3, f4, f5, f6, f7, f8⟩ :=
      writeCell_inv hInv1 ch fg bg attrs (effWidth ch)
        (by rw [hx1, hcols1]; have := hInv.cols_two; omega)
        (by rcases effWidth_cases ch with h | h
            · exact Or.inl h
            · exact Or.inr ⟨h, by rw [hx1, hcols1]; have := hInv.cols_two; omega⟩)
    refine ⟨g', hg', hInv', ?_, ?_, ?_, ?_, ?_⟩ <;> simp_all
  · rw [if_neg hwx]
    simp only [Option.some_bind]
    by_cases hcond : effWidth ch = 2 ∧ g.cols ≤ g.cursor_x + 1
    · rw [if_pos hcond]
      obtain ⟨g2, hg2, hInv2, e1, e2, e3, _, _, e6, e7, e8⟩ :=
        newline_inv (gridInv_cx_zero hInv)
      rw [hg2]
      simp only [Option.some_bind]
      have hx2 : g2.cursor_x = 0 := by simpa using e3
      have hcols2 : g2.cols = g.cols := by simpa using e2
      rw [if_neg (by have := hInv2.cy_lt; omega)]
      obtain ⟨g', hg', hInv', f1, f2, f3, f4, f5, f6, f7, f8⟩ :=
        writeCell_inv hInv2 ch fg bg attrs (effWidth ch)
          (by rw [hx2, hcols2]; have := hInv.cols_two; omega)
          (Or.inr ⟨hcond.1, by rw [hx2, hcols2]; have := hInv.cols_two; omega⟩)
      refine ⟨g', hg', hInv', ?_, ?_, ?_, ?_, ?_⟩ <;> simp_all
    · rw [if_neg hcond]
      obtain ⟨g', hg', hInv', f1, f2, f3, f4, f5, f6, f7, f8⟩ :=
        writeCell_inv hInv ch fg bg attrs (effWidth ch) (by omega)
          (by rcases effWidth_cases ch with h | h
              · exact Or.inl h
              · refine Or.inr ⟨h, ?_⟩
                rcases not_and_or.mp hcond with hc | hc
                · exact absurd h hc
                · omega)
      exact ⟨g', hg', hInv', f1, f2, f5, f6, f7⟩

theorem erase_line_inv {g : Grid} (hInv : GridInv g) (mode : Nat) :
    ∃ g', g.erase_line mode = some g' ∧ GridInv g' ∧
      g'.rows = g.rows ∧ g'.cols = g.cols ∧ g'.cursor_x = g.cursor_x ∧
      g'.cursor_y = g.cursor_y ∧ g'.scroll_top = g.scroll_top ∧
      g'.scroll_bot = g.scroll_bot ∧ g'.max_scrollback = g.max_scrollback ∧
      g'.scrollback = g.scrollback := by
  have hy : g.cursor_y < g.cells.length := by rw [hInv.cells_len]; exact hInv.cy_lt
  obtain ⟨row, hrow⟩ : ∃ row, g.cells[g.cursor_y]? = some row := by
    rw [getElem?_eq_some_getD hy []]; exact ⟨_, rfl⟩
  have hrl : row.length = g.cols := rowlen_of_getElemQ hInv hrow
  have heq : g.erase_line mode = some { g with cells := g.cells.set g.cursor_y (
      match mode with
      | 0 => row.take g.cursor_x ++ List.replicate (row.length - g.cursor_x) Cell.default
      | 1 => List.replicate (min (g.cursor_x + 1) row.length) Cell.default ++ row.drop (g.cursor_x + 1)
      | 2 => List.replicate row.length Cell.default
      | _ => row) } := by
    unfold Grid.erase_line
    rw [if_neg (by have := hInv.cy_lt; omega), hrow]
  have hRlen : (match mode with
      | 0 => row.take g.cursor_x ++ List.replicate (row.length - g.cursor_x) Cell.default
      | 1 => List.replicate (min (g.cursor_x + 1) row.length) Cell.default ++ row.drop (g.cursor_x + 1)
      | 2 => List.replicate row.length Cell.default
      | _ => row).length = g.cols := by
    rcases mode with _ | _ | _ | m <;>
      simp [List.length_append, List.length_take, List.length_replicate,
        List.length_drop, hrl] <;> omega
  refine ⟨_, heq, ⟨hInv.rows_pos, hInv.cols_two, ?_, ?_, hInv.cx_le, hInv.cy_lt,
    hInv.top_le_bot, hInv.bot_lt, hInv.sb_le⟩, rfl, rfl, rfl, rfl, rfl, rfl, rfl, rfl⟩
  · simp only [List.length_set, hInv.cells_len]
  · intro r hr
    rcases List.mem_or_eq_of_mem_set hr with h | h
    · exact hInv.row_len r h
    · rw [h, hRlen]

theorem eraseRows_inv {cells : List (List Cell)} {cols : Nat}
    (hlen : ∀ r ∈ cells, r.length = cols) (lo hi : Nat)
    (hhi : hi ≤ lo ∨ hi ≤ cells.length) :
    ∃ cells', eraseRows cells lo hi = some cells' ∧
      cells'.length = cells.length ∧ ∀ r ∈ cells', r.length = cols := by
  unfold eraseRows
  by_cases hc : hi ≤ lo
  · rw [if_pos hc]
    exact ⟨cells, rfl, rfl, hlen⟩
  · rw [if_neg hc, if_pos (by omega)]
    refine ⟨_, rfl, by simp, ?_⟩
    intro r hr
    rw [List.mapIdx_eq_ofFn] at hr
    obtain ⟨i, he⟩ := (List.mem_ofFn _ _).mp hr
    have hmem : cells.get i ∈ cells := by
      rw [List.get_eq_getElem]
      exact List.getElem_mem _
    rw [← he]
    show (if lo ≤ ↑i ∧ ↑i < hi then List.replicate (cells.get i).length Cell.default
      else cells.get i).length = cols
    split
    · simp only [List.length_replicate]
      exact hlen _ hmem
    · exact hlen _ hmem

theorem erase_display_inv {g : Grid} (hInv : GridInv g) (mode : Nat) :
    ∃ g', g.erase_display mode = some g' ∧ GridInv g' ∧
      g'.rows = g.rows ∧ g'.cols = g.cols ∧
      g'.scroll_top = g.scroll_top ∧ g'.scroll_bot = g.scroll_bot ∧
      g'.max_scrollback = g.max_scrollback ∧ g'.scrollback = g.scrollback ∧
      ((mode = 2 ∨ mode = 3) → g'.cursor_x = 0 ∧ g'.cursor_y = 0) ∧
      (¬(mode = 2 ∨ mode = 3) → g'.cursor_x = g.cursor_x ∧ g'.cursor_y = g.cursor_y) := by
  rcases mode with _ | _ | _ | _ | m
  · -- mode 0
    obtain ⟨g1, hg1, hInv1, e1, e2, e3, e4, e5, e6, e7, e8⟩ := erase_line_inv hInv 0
    obtain ⟨cells', hc', hclen, hcmem⟩ := eraseRows_inv hInv1.row_len
      (g1.cursor_y + 1) g1.rows (Or.inr (by rw [hInv1.cells_len]))
    refine ⟨{ g1 with cells := cells' }, ?_, ?_, e1, e2, e5, e6, e7, e8, by simp,
      fun _ => ⟨e3, e4⟩⟩
    · show Grid.erase_display g 0 = _
      unfold Grid.erase_display
      rw [hg1, Option.some_bind, hc', Option.map_some']
    · exact ⟨hInv1.rows_pos, hInv1.cols_two, by simpa [hclen] using hInv1.cells_len,
        hcmem, hInv1.cx_le, hInv1.cy_lt, hInv1.top_le_bot, hInv1.bot_lt, hInv1.sb_le⟩
  · -- mode 1
    obtain ⟨cells', hc', hclen, hcmem⟩ := eraseRows_inv hInv.row_len 0 g.cursor_y
      (Or.inr (by rw [hInv.cells_len]; have := hInv.cy_lt; omega))
    have hInvM : GridInv { g with cells := cells' } :=
      ⟨hInv.rows_pos, hInv.cols_two, by simpa [hclen] using hInv.cells_len, hcmem,
        hInv.cx_le, hInv.cy_lt, hInv.top_le_bot, hInv.bot_lt, hInv.sb_le⟩
    obtain ⟨g', hg', hInv', e1, e2, e3, e4, e5, e6, e7, e8⟩ := erase_line_inv hInvM 1
    refine ⟨g', ?_, hInv', by simpa using e1, by simpa using e2, by simpa using e5,
      by simpa using e6, by simpa using e7, by simpa using e8,
      by simp, fun _ => ⟨by simpa using e3, by simpa using e4⟩⟩
    show Grid.erase_display g 1 = _
    unfold Grid.erase_display
    rw [hc', Option.some_bind]
    exact hg'
  · -- mode 2
    refine ⟨{ g with
        cells := (g.cells.map fun row => List.replicate row.length Cell.default),
        cursor_x := 0, cursor_y := 0 }, rfl, ?_, rfl, rfl, rfl, rfl, rfl, rfl,
      fun _ => ⟨rfl, rfl⟩, by simp⟩
    refine ⟨hInv.rows_pos, hInv.cols_two, by simpa using hInv.cells_len, ?_,
      Nat.zero_le _, by show 0 < g.rows; have := hInv.rows_pos; omega, hInv.top_le_bot, hInv.bot_lt,
      hInv.sb_le⟩
    intro r hr
    obtain ⟨r0, hr0, he⟩ := List.mem_map.mp hr
    rw [← he, List.length_replicate]
    exact hInv.row_len r0 hr0
  · -- mode 3
    refine ⟨{ g with
        cells := (g.cells.map fun row => List.replicate row.length Cell.default),
        cursor_x := 0, cursor_y := 0 }, rfl, ?_, rfl, rfl, rfl, rfl, rfl, rfl,
      fun _ => ⟨rfl, rfl⟩, by simp⟩
    refine ⟨hInv.rows_pos, hInv.cols_two, by simpa using hInv.cells_len, ?_,
      Nat.zero_le _, by show 0 < g.rows; have := hInv.rows_pos; omega, hInv.top_le_bot, hInv.bot_lt,
      hInv.sb_le⟩
    intro r hr
    obtain ⟨r0, hr0, he⟩ := List.mem_map.mp hr
    rw [← he, List.length_replicate]
    exact hInv.row_len r0 hr0
  · -- mode at least 4
    exact ⟨g, rfl, hInv, rfl, rfl, rfl, rfl, rfl, rfl, fun h => absurd h (by omega), fun _ => ⟨rfl, rfl⟩⟩

theorem resize_inv {g : Grid} (hInv : GridInv g) {r c : Nat} (hr : 1 ≤ r)
    (hc : 2 ≤ c) (htop : g.scroll_top < r) : GridInv (g.resize r c) := by
  unfold Grid.resize
  constructor <;> simp only
  · exact hr
  · exact hc
  · split
    · simp only [List.length_append, List.length_map, List.length_replicate, hInv.cells_len]
      omega
    · simp only [List.length_take, List.length_map, hInv.cells_len]
      omega
  · intro row hrow
    have hone : ∀ row0 ∈ g.cells.map (fun row =>
        row.take c ++ List.replicate (c - row.length) Cell.default), row0.length = c := by
      intro row0 h0
      obtain ⟨r1, hr1, he⟩ := List.mem_map.mp h0
      have := hInv.row_len r1 hr1
      rw [← he]
      simp only [List.length_append, List.length_take, List.length_replicate]
      omega
    split at hrow
    · rcases List.mem_append.mp hrow with h | h
      · exact hone row h
      · rw [List.eq_of_mem_replicate h]
        simp [blankRow]
    · exact hone row (List.mem_of_mem_take hrow)
  · omega
  · omega
  · omega
  · omega
  · exact hInv.sb_le

theorem deleteChars_inv {row : List Cell} {cols : Nat} (hrl : row.length = cols)
    (x n : Nat) :
    ∃ row', deleteChars row x n cols = some row' ∧ row'.length = cols := by
  unfold deleteChars
  by_cases hc : cols ≤ x
  · rw [if_pos hc]
    exact ⟨row, rfl, hrl⟩
  · rw [if_neg hc, if_pos (by omega)]
    refine ⟨_, rfl, ?_⟩
    rw [List.length_mapIdx, hrl]

theorem insertBlanks_inv {row : List Cell} {cols : Nat} (hrl : row.length = cols)
    (x n : Nat) :
    ∃ row', insertBlanks row x n cols = some row' ∧ row'.length = cols := by
  unfold insertBlanks
  by_cases hc : cols ≤ x
  · rw [if_pos hc]
    exact ⟨row, rfl, hrl⟩
  · rw [if_neg hc, if_pos (by omega)]
    refine ⟨_, rfl, ?_⟩
    rw [List.length_mapIdx, hrl]

theorem pnParam_pos (ps : List Nat) (i : Nat) : 1 ≤ pnParam ps i :=
  le_max_right _ _

theorem execute_inv {st : PerfState} (hInv : GridInv st.grid) (b : Nat) :
    ∃ st', Performer.execute st b = some st' ∧ GridInv st'.grid := by
  unfold Performer.execute
  split_ifs with h1 h2 h3 h4
  · obtain ⟨g', hg', hInv', -⟩ := newline_inv hInv
    exact ⟨_, by rw [hg', Option.map_some'], hInv'⟩
  · exact ⟨_, rfl, ⟨hInv.rows_pos, hInv.cols_two, hInv.cells_len, hInv.row_len,
      Nat.zero_le _, hInv.cy_lt, hInv.top_le_bot, hInv.bot_lt, hInv.sb_le⟩⟩
  · refine ⟨_, rfl, ⟨hInv.rows_pos, hInv.cols_two, hInv.cells_len, hInv.row_len, ?_,
      hInv.cy_lt, hInv.top_le_bot, hInv.bot_lt, hInv.sb_le⟩⟩
    simp only
    have := hInv.cols_two
    omega
  · refine ⟨_, rfl, ⟨hInv.rows_pos, hInv.cols_two, hInv.cells_len, hInv.row_len, ?_,
      hInv.cy_lt, hInv.top_le_bot, hInv.bot_lt, hInv.sb_le⟩⟩
    simp only
    have := hInv.cx_le
    omega
  · exact ⟨st, rfl, hInv⟩

theorem esc_dispatch_inv {st : PerfState} (hInv : GridInv st.grid) (b : Nat) :
    ∃ st', esc_dispatch st b = some st' ∧ GridInv st'.grid := by
  unfold esc_dispatch
  split_ifs with h1 h2
  · obtain ⟨hInv', -⟩ := scrollDownStep_inv hInv (scrollDownStep_eq hInv)
    exact ⟨_, by rw [scrollDownStep_eq hInv, Option.map_some'], hInv'⟩
  · refine ⟨_, rfl, ⟨hInv.rows_pos, hInv.cols_two, hInv.cells_len, hInv.row_len,
      hInv.cx_le, ?_, hInv.top_le_bot, hInv.bot_lt, hInv.sb_le⟩⟩
    simp only
    have := hInv.cy_lt
    omega
  · exact ⟨st, rfl, hInv⟩

set_option maxHeartbeats 1600000 in
theorem csi_dispatch_inv {st : PerfState} (hInv : GridInv st.grid)
    (ps : List Nat) (action : Char)
    (hok : action = 'r' → pnParam ps 0 ≤ pnParam ps 1 ∧ pnParam ps 0 ≤ st.grid.rows) :
    ∃ st', csi_dispatch st ps action = some st' ∧ GridInv st'.grid := by
  have hrows := hInv.rows_pos
  have hcols := hInv.cols_two
  have hcy := hInv.cy_lt
  have hcx := hInv.cx_le
  unfold csi_dispatch
  by_cases h1 : action = 'A'
  · rw [if_pos h1]
    exact ⟨_, rfl, ⟨hInv.rows_pos, hInv.cols_two, hInv.cells_len, hInv.row_len,
      hInv.cx_le, by simp only; omega, hInv.top_le_bot, hInv.bot_lt, hInv.sb_le⟩⟩
  rw [if_neg h1]
  by_cases h2 : action = 'B'
  · rw [if_pos h2]
    exact ⟨_, rfl, ⟨hInv.rows_pos, hInv.cols_two, hInv.cells_len, hInv.row_len,
      hInv.cx_le, by simp only; omega, hInv.top_le_bot, hInv.bot_lt, hInv.sb_le⟩⟩
  rw [if_neg h2]
  by_cases h3 : action = 'C'
  · rw [if_pos h3]
    exact ⟨_, rfl, ⟨hInv.rows_pos, hInv.cols_two, hInv.cells_len, hInv.row_len,
      by simp only; omega, hInv.cy_lt, hInv.top_le_bot, hInv.bot_lt, hInv.sb_le⟩⟩
  rw [if_neg h3]
  by_cases h4 : action = 'D'
  · rw [if_pos h4]
    exact ⟨_, rfl, ⟨hInv.rows_pos, hInv.cols_two, hInv.cells_len, hInv.row_len,
      by simp only; omega, hInv.cy_lt, hInv.top_le_bot, hInv.bot_lt, hInv.sb_le⟩⟩
  rw [if_neg h4]
  by_cases h5 : action = 'H' ∨ action = 'f'
  · rw [if_pos h5]
    exact ⟨_, rfl, ⟨hInv.rows_pos, hInv.cols_two, hInv.cells_len, hInv.row_len,
      by simp only; omega, by simp only; omega, hInv.top_le_bot, hInv.bot_lt, hInv.sb_le⟩⟩
  rw [if_neg h5]
  by_cases h6 : action = 'J'
  · rw [if_pos h6]
    obtain ⟨g', hg', hInv', -⟩ := erase_display_inv hInv (ps.headD 0 % 256)
    exact ⟨_, by rw [hg', Option.map_some'], hInv'⟩
  rw [if_neg h6]
  by_cases h7 : action = 'K'
  · rw [if_pos h7]
    obtain ⟨g', hg', hInv', -⟩ := erase_line_inv hInv (ps.headD 0 % 256)
    exact ⟨_, by rw [hg', Option.map_some'], hInv'⟩
  rw [if_neg h7]
  by_cases h8 : action = 'S' ∨ action = 'L'
  · rw [if_pos h8]
    obtain ⟨g', hg', hInv', -⟩ := scroll_up_inv hInv (pnParam ps 0)
    exact ⟨_, by rw [hg', Option.map_some'], hInv'⟩
  rw [if_neg h8]
  by_cases h9 : action = 'T' ∨ action = 'M'
  · rw [if_pos h9]
    obtain ⟨g', hg', hInv', -⟩ := scroll_down_inv hInv (pnParam ps 0)
    exact ⟨_, by rw [hg', Option.map_some'], hInv'⟩
  rw [if_neg h9]
  by_cases h10 : action = 'm'
  · rw [if_pos h10]
    exact ⟨_, rfl, hInv⟩
  rw [if_neg h10]
  by_cases h11 : action = 'r'
  · rw [if_pos h11]
    obtain ⟨hpq, hpr⟩ := hok h11
    have hp := pnParam_pos ps 0
    exact ⟨_, rfl, ⟨hInv.rows_pos, hInv.cols_two, hInv.cells_len, hInv.row_len,
      hInv.cx_le, hInv.cy_lt, by simp only; omega, by simp only; omega, hInv.sb_le⟩⟩
  rw [if_neg h11]
  by_cases h12 : action = 'd'
  · rw [if_pos h12]
    exact ⟨_, rfl, ⟨hInv.rows_pos, hInv.cols_two, hInv.cells_len, hInv.row_len,
      hInv.cx_le, by simp only; omega, hInv.top_le_bot, hInv.bot_lt, hInv.sb_le⟩⟩
  rw [if_neg h12]
  by_cases h13 : action = 'G'
  · rw [if_pos h13]
    exact ⟨_, rfl, ⟨hInv.rows_pos, hInv.cols_two, hInv.cells_len, hInv.row_len,
      by simp only; omega, hInv.cy_lt, hInv.top_le_bot, hInv.bot_lt, hInv.sb_le⟩⟩
  rw [if_neg h13]
  by_cases h14 : action = 'P'
  · rw [if_pos h14, if_pos hcy]
    have hy : st.grid.cursor_y < st.grid.cells.length := by
      rw [hInv.cells_len]; exact hInv.cy_lt
    obtain ⟨row, hrow⟩ : ∃ row, st.grid.cells[st.grid.cursor_y]? = some row := by
      rw [getElem?_eq_some_getD hy []]; exact ⟨_, rfl⟩
    have hrl : row.length = st.grid.cols := rowlen_of_getElemQ hInv hrow
    obtain ⟨row', hd, hl⟩ := deleteChars_inv hrl st.grid.cursor_x (pnParam ps 0)
    simp only [hrow]
    refine ⟨{ st with grid := { st.grid with
        cells := st.grid.cells.set st.grid.cursor_y row' } },
      by rw [hd, Option.map_some'], ⟨hInv.rows_pos, hInv.cols_two,
      by simp only [List.length_set]; exact hInv.cells_len, ?_, hInv.cx_le, hInv.cy_lt,
      hInv.top_le_bot, hInv.bot_lt, hInv.sb_le⟩⟩
    intro r hr
    rcases List.mem_or_eq_of_mem_set hr with h | h
    · exact hInv.row_len r h
    · rw [h]; exact hl
  rw [if_neg h14]
  by_cases h15 : action = '@'
  · rw [if_pos h15, if_pos hcy]
    have hy : st.grid.cursor_y < st.grid.cells.length := by
      rw [hInv.cells_len]; exact hInv.cy_lt
    obtain ⟨row, hrow⟩ : ∃ row, st.grid.cells[st.grid.cursor_y]? = some row := by
      rw [getElem?_eq_some_getD hy []]; exact ⟨_, rfl⟩
    have hrl : row.length = st.grid.cols := rowlen_of_getElemQ hInv hrow
    obtain ⟨row', hd, hl⟩ := insertBlanks_inv hrl st.grid.cursor_x (pnParam ps 0)
    simp only [hrow]
    refine ⟨{ st with grid := { st.grid with
        cells := st.grid.cells.set st.grid.cursor_y row' } },
      by rw [hd, Option.map_some'], ⟨hInv.rows_pos, hInv.cols_two,
      by simp only [List.length_set]; exact hInv.cells_len, ?_, hInv.cx_le, hInv.cy_lt,
      hInv.top_le_bot, hInv.bot_lt, hInv.sb_le⟩⟩
    intro r hr
    rcases List.mem_or_eq_of_mem_set hr with h | h
    · exact hInv.row_len r h
    · rw [h]; exact hl
  rw [if_neg h15]
  exact ⟨st, rfl, hInv⟩

theorem applyGOp_inv {st : PerfState} (hInv : GridInv st.grid) (op : GOp)
    (hok : opOK st op = true) :
    ∃ st', applyGOp st op = some st' ∧ GridInv st'.grid := by
  cases op with
  | put ch fg bg attrs =>
    obtain ⟨g', hg', hInv', -⟩ := put_char_inv hInv ch fg bg attrs
    exact ⟨{ st with grid := g' }, by simp only [applyGOp, hg', Option.map_some'], hInv'⟩
  | newline =>
    obtain ⟨g', hg', hInv', -⟩ := newline_inv hInv
    exact ⟨{ st with grid := g' }, by simp only [applyGOp, hg', Option.map_some'], hInv'⟩
  | scrollUp n =>
    obtain ⟨g', hg', hInv', -⟩ := scroll_up_inv hInv n
    exact ⟨{ st with grid := g' }, by simp only [applyGOp, hg', Option.map_some'], hInv'⟩
  | scrollDown n =>
    obtain ⟨g', hg', hInv', -⟩ := scroll_down_inv hInv n
    exact ⟨{ st with grid := g' }, by simp only [applyGOp, hg', Option.map_some'], hInv'⟩
  | eraseLine m =>
    obtain ⟨g', hg', hInv', -⟩ := erase_line_inv hInv m
    exact ⟨{ st with grid := g' }, by simp only [applyGOp, hg', Option.map_some'], hInv'⟩
  | eraseDisplay m =>
    obtain ⟨g', hg', hInv', -⟩ := erase_display_inv hInv m
    exact ⟨{ st with grid := g' }, by simp only [applyGOp, hg', Option.map_some'], hInv'⟩
  | resizeOp r c =>
    have hok' : 1 ≤ r ∧ 2 ≤ c ∧ st.grid.scroll_top < r := by
      simpa [opOK] using hok
    exact ⟨{ st with grid := st.grid.resize r c }, rfl, resize_inv hInv hok'.1 hok'.2.1 hok'.2.2⟩
  | csi ps action =>
    refine csi_dispatch_inv hInv ps action fun hr => ?_
    rw [opOK, if_pos hr] at hok
    simpa using hok
  | execC0 b => exact execute_inv hInv b
  | escByte b => exact esc_dispatch_inv hInv b

theorem applySeq_inv {st : PerfState} (hInv : GridInv st.grid) (ops : List GOp)
    (hok : seqOK st ops = true) :
    ∃ st', applySeq st ops = some st' ∧ GridInv st'.grid := by
  induction ops generalizing st with
  | nil => exact ⟨st, rfl, hInv⟩
  | cons op ops ih =>
    rw [seqOK, Bool.and_eq_true] at hok
    obtain ⟨st1, hst1, hInv1⟩ := applyGOp_inv hInv op hok.1
    have hok2 : seqOK st1 ops = true := by
      have := hok.2
      rw [hst1] at this
      exact this
    obtain ⟨st', hst', hInv'⟩ := ih hInv1 hok2
    refine ⟨st', ?_, hInv'⟩
    rw [applySeq, hst1, Option.some_bind]
    exact hst'

theorem gridInv_new {rows cols : Nat} (msb : Nat) (hr : 1 ≤ rows) (hc : 2 ≤ cols) :
    GridInv (Grid.new rows cols msb) := by
  refine ⟨hr, hc, by simp [Grid.new], ?_, Nat.zero_le _, by simpa [Grid.new] using hr,
    Nat.zero_le _, by simp [Grid.new]; omega, by simp [Grid.new]⟩
  intro r hrm
  rw [List.eq_of_mem_replicate hrm]
  simp [blankRow, Grid.new]

/-- C1: the spec promises that malformed CSI parameters are clamped and can
never make a grid operation index out of bounds, but the CSI r arm stores an
unclamped scroll_top; the byte stream ESC [ 1 0 0 r LF on a 5-row grid then
makes scroll_up remove index 99 from a 5-element vector, which panics (none
in this embedding). -/
theorem c1_unclamped_scroll_region_panics :
    TermState.process_bytes (TermState.new 5 5 10)
      [0x1B, 0x5B, 0x31, 0x30, 0x30, 0x72, 0x0A] = none := by
  rfl

/-- C2 counterexample: the claim promises scroll_top ≤ scroll_bot < rows
after every CSI dispatch, but dispatching CSI 100 r on a freshly created
5-by-5 grid leaves scroll_top = 99 and scroll_bot = 0. -/
theorem c2_scroll_region_invariant_broken :
    ∃ st', csi_dispatch (TermState.new 5 5 10).perf [100] 'r' = some st' ∧
      st'.grid.scroll_top = 99 ∧ st'.grid.scroll_bot = 0 ∧
      ¬ st'.grid.scroll_top ≤ st'.grid.scroll_bot := by
  refine ⟨_, rfl, ?_, ?_, ?_⟩ <;> decide

/-- C2 (amended): for grids created with at least one row and at least two
columns, and operation sequences in which every CSI r carries parameters
with top ≤ bottom ≤ rows and every resize keeps at least one row, two
columns and a row count above the current scroll_top, every prefix applies
without a panic and the invariants hold afterwards: cursor_x ≤ cols,
cursor_y < rows, scroll_top ≤ scroll_bot < rows, scrollback length at most
max_scrollback, and every row of exactly cols cells. -/
theorem c2_invariants_preserved (rows cols msb : Nat) (hr : 1 ≤ rows)
    (hc : 2 ≤ cols) (ops : List GOp)
    (hok : seqOK (TermState.new rows cols msb).perf ops = true) :
    ∃ st', applySeq (TermState.new rows cols msb).perf ops = some st' ∧
      GridInv st'.grid :=
  applySeq_inv (gridInv_new msb hr hc) ops hok

/-- C2 witness. -/
theorem c2_invariants_preserved_witness :
    ∃ st', applySeq (TermState.new 5 5 10).perf
      [GOp.csi [2, 4] 'r', GOp.put 'a' TermColor.Default TermColor.Default Attrs.default,
       GOp.newline, GOp.resizeOp 4 6, GOp.eraseDisplay 0, GOp.scrollUp 2,
       GOp.csi [7] 'B', GOp.execC0 9, GOp.escByte 0x4D] = some st' ∧
      GridInv st'.grid :=
  c2_invariants_preserved 5 5 10 (by decide) (by decide) _ (by decide)

/-- C5: feeding a byte stream in two chunks through process_bytes gives the
same session state (grid, pen, title, lexer state) as feeding it whole,
because every piece of state persists in the TermState between calls. -/
theorem c5_process_bytes_chunk_invariant (st : TermState) (a b : List Nat) :
    st.process_bytes (a ++ b) =
      st.process_bytes a >>= fun st1 => st1.process_bytes b := by
  unfold TermState.process_bytes
  rw [List.foldlM_append]

theorem scroll_up_scrollback {g : Grid} (hInv : GridInv g) (n : Nat) :
    ∃ g' ev, g.scroll_up n = some g' ∧ GridInv g' ∧
      g'.max_scrollback = g.max_scrollback ∧ (ev : List (List Cell)).length = n ∧
      g'.scrollback = (g.scrollback ++ ev).drop
        (g.scrollback.length + n - g.max_scrollback) := by
  induction n generalizing g with
  | zero =>
    refine ⟨g, [], rfl, hInv, rfl, rfl, ?_⟩
    have := hInv.sb_le
    rw [List.append_nil]
    have hz : g.scrollback.length + 0 - g.max_scrollback = 0 := by omega
    rw [hz, List.drop_zero]
  | succ n ih =>
    have hsb := hInv.sb_le
    have hstep := scrollUpStep_eq hInv
    by_cases hcap : g.max_scrollback < g.scrollback.length + 1
    · rw [if_pos hcap] at hstep
      have hlen : g.scrollback.length = g.max_scrollback := by omega
      obtain ⟨hInv1, -⟩ := scrollUpStep_inv hInv hstep
      obtain ⟨g', ev', hg', hInv', e1, e2, e3⟩ := ih hInv1
      refine ⟨g', g.cells.getD g.scroll_top [] :: ev', ?_, hInv', e1, by simp [e2], ?_⟩
      · show Grid.scroll_up g (n + 1) = some g'
        unfold Grid.scroll_up
        rw [hstep]
        simpa using hg'
      · have e3' : g'.scrollback = List.drop
            (((g.scrollback ++ [g.cells.getD g.scroll_top []]).drop 1).length + n
              - g.max_scrollback)
            ((g.scrollback ++ [g.cells.getD g.scroll_top []]).drop 1 ++ ev') := e3
        rw [e3']
        have hdl : ((g.scrollback ++ [g.cells.getD g.scroll_top []]).drop 1).length
            = g.max_scrollback := by
          simp only [List.length_drop, List.length_append, List.length_cons,
            List.length_nil]
          omega
        rw [hdl]
        have hidx : g.max_scrollback + n - g.max_scrollback = n := by omega
        rw [hidx]
        have hgoal : g.scrollback.length + (n + 1) - g.max_scrollback = n + 1 := by
          omega
        rw [hgoal]
        have h1le : 1 ≤ (g.scrollback ++ [g.cells.getD g.scroll_top []]).length := by
          simp
        conv_rhs => rw [List.append_cons, show n + 1 = 1 + n from by omega,
          ← List.drop_drop, List.drop_append_of_le_length h1le]
    · rw [if_neg hcap] at hstep
      obtain ⟨hInv1, -⟩ := scrollUpStep_inv hInv hstep
      obtain ⟨g', ev', hg', hInv', e1, e2, e3⟩ := ih hInv1
      refine ⟨g', g.cells.getD g.scroll_top [] :: ev', ?_, hInv', e1, by simp [e2], ?_⟩
      · show Grid.scroll_up g (n + 1) = some g'
        unfold Grid.scroll_up
        rw [hstep]
        simpa using hg'
      · have e3' : g'.scrollback = List.drop
            ((g.scrollback ++ [g.cells.getD g.scroll_top []]).length + n
              - g.max_scrollback)
            ((g.scrollback ++ [g.cells.getD g.scroll_top []]) ++ ev') := e3
        rw [e3']
        congr 1
        · simp only [List.length_append, List.length_cons, List.length_nil]
          omega
        · simp

/-- C6: each scroll-up iteration removes the row at scroll_top, appends it
to scrollback and inserts a blank row at scroll_bot; over any number of
iterations the scrollback is the newest-keeping suffix of the old
scrollback plus the evicted rows, and its length never exceeds
max_scrollback. -/
theorem c6_scroll_up_scrollback_fifo :
    (∀ g : Grid, GridInv g → g.scroll_up 1 = some { g with
      cells := List.insertIdx g.scroll_bot (blankRow g.cols)
        (g.cells.eraseIdx g.scroll_top),
      scrollback := if g.max_scrollback < g.scrollback.length + 1 then
          (g.scrollback ++ [g.cells.getD g.scroll_top []]).drop 1
        else g.scrollback ++ [g.cells.getD g.scroll_top []] }) ∧
    (∀ (g : Grid) (n : Nat), GridInv g → ∃ g' ev,
      g.scroll_up n = some g' ∧ (ev : List (List Cell)).length = n ∧
      g'.scrollback = (g.scrollback ++ ev).drop
        (g.scrollback.length + n - g.max_scrollback) ∧
      g'.scrollback.length ≤ g.max_scrollback) := by
  constructor
  · intro g hInv
    show Grid.scroll_up g (0 + 1) = _
    unfold Grid.scroll_up
    rw [scrollUpStep_eq hInv]
    simp [Grid.scroll_up]
  · intro g n hInv
    obtain ⟨g', ev, hg', hInv', hmax, hlen, hsb⟩ := scroll_up_scrollback hInv n
    exact ⟨g', ev, hg', hlen, hsb, hmax ▸ hInv'.sb_le⟩

/-- C6 witness. -/
theorem c6_scroll_up_scrollback_fifo_witness :
    ∃ g' ev, (Grid.new 3 3 2).scroll_up 5 = some g' ∧
      (ev : List (List Cell)).length = 5 ∧
      g'.scrollback = (((Grid.new 3 3 2).scrollback ++ ev).drop
        ((Grid.new 3 3 2).scrollback.length + 5 - (Grid.new 3 3 2).max_scrollback)) ∧
      g'.scrollback.length ≤ (Grid.new 3 3 2).max_scrollback :=
  c6_scroll_up_scrollback_fifo.2 (Grid.new 3 3 2) 5 (gridInv_new 2 (by decide) (by decide))

/-- C7 counterexample: the claim says newline scrolls exactly when the
cursor is at scroll_bot and otherwise increments cursor_y; with the cursor
below the scroll region (cursor_y = 4, scroll_bot = 2) the code scrolls
(cursor stays 4, scrollback grows) instead of incrementing to 5. -/
theorem c7_newline_below_region_scrolls :
    ∃ g', Grid.newline { Grid.new 5 5 10 with scroll_bot := 2, cursor_y := 4 }
        = some g' ∧
      ({ Grid.new 5 5 10 with scroll_bot := 2, cursor_y := 4 } : Grid).cursor_y ≠
        ({ Grid.new 5 5 10 with scroll_bot := 2, cursor_y := 4 } : Grid).scroll_bot ∧
      g'.cursor_y = 4 ∧ g'.cursor_y ≠ 5 ∧ g'.scrollback.length = 1 := by
  refine ⟨_, rfl, ?_, ?_, ?_, ?_⟩ <;> decide

/-- C7 (amended): newline scrolls the region up by one exactly when the
cursor is at or below scroll_bot (leaving cursor_y unchanged), and
increments cursor_y by one otherwise. -/
theorem c7_newline_behaviour (g : Grid) (hInv : GridInv g) :
    (g.cursor_y < g.scroll_bot →
      g.newline = some { g with cursor_y := g.cursor_y + 1 }) ∧
    (g.scroll_bot ≤ g.cursor_y → ∃ g', g.newline = some g' ∧
      g'.cursor_y = g.cursor_y ∧
      g'.cells = List.insertIdx g.scroll_bot (blankRow g.cols)
        (g.cells.eraseIdx g.scroll_top) ∧
      g'.scrollback = (if g.max_scrollback < g.scrollback.length + 1 then
          (g.scrollback ++ [g.cells.getD g.scroll_top []]).drop 1
        else g.scrollback ++ [g.cells.getD g.scroll_top []])) := by
  constructor
  · intro hlt
    unfold Grid.newline
    rw [if_neg (by omega)]
  · intro hge
    unfold Grid.newline
    rw [if_pos hge]
    refine ⟨{ g with
      cells := List.insertIdx g.scroll_bot (blankRow g.cols)
        (g.cells.eraseIdx g.scroll_top),
      scrollback := if g.max_scrollback < g.scrollback.length + 1 then
          (g.scrollback ++ [g.cells.getD g.scroll_top []]).drop 1
        else g.scrollback ++ [g.cells.getD g.scroll_top []] }, ?_, rfl, rfl, rfl⟩
    show Grid.scroll_up g (0 + 1) = _
    unfold Grid.scroll_up
    rw [scrollUpStep_eq hInv]
    simp [Grid.scroll_up]

/-- C7 witness. -/
theorem c7_newline_behaviour_witness :
    ((Grid.new 3 3 2).cursor_y < (Grid.new 3 3 2).scroll_bot →
      (Grid.new 3 3 2).newline = some { Grid.new 3 3 2 with
        cursor_y := (Grid.new 3 3 2).cursor_y + 1 }) ∧
    ((Grid.new 3 3 2).scroll_bot ≤ (Grid.new 3 3 2).cursor_y →
      ∃ g', (Grid.new 3 3 2).newline = some g' ∧
        g'.cursor_y = (Grid.new 3 3 2).cursor_y ∧
        g'.cells = List.insertIdx (Grid.new 3 3 2).scroll_bot
          (blankRow (Grid.new 3 3 2).cols)
          ((Grid.new 3 3 2).cells.eraseIdx (Grid.new 3 3 2).scroll_top) ∧
        g'.scrollback = (if (Grid.new 3 3 2).max_scrollback <
            (Grid.new 3 3 2).scrollback.length + 1 then
            ((Grid.new 3 3 2).scrollback ++
              [(Grid.new 3 3 2).cells.getD (Grid.new 3 3 2).scroll_top []]).drop 1
          else (Grid.new 3 3 2).scrollback ++
            [(Grid.new 3 3 2).cells.getD (Grid.new 3 3 2).scroll_top []])) :=
  c7_newline_behaviour (Grid.new 3 3 2) (gridInv_new 2 (by decide) (by decide))

/-- C10: erase_display never panics on an invariant grid, leaves the cursor
in place for modes 0, 1 and any unrecognized mode, and resets it to the
origin exactly for modes 2 and 3. -/
theorem c10_erase_display_cursor (g : Grid) (hInv : GridInv g) (mode : Nat) :
    ∃ g', g.erase_display mode = some g' ∧
      ((mode = 2 ∨ mode = 3) → g'.cursor_x = 0 ∧ g'.cursor_y = 0) ∧
      (¬(mode = 2 ∨ mode = 3) →
        g'.cursor_x = g.cursor_x ∧ g'.cursor_y = g.cursor_y) := by
  obtain ⟨g', hg', -, -, -, -, -, -, -, h23, hother⟩ := erase_display_inv hInv mode
  exact ⟨g', hg', h23, hother⟩

/-- C10 witness. -/
theorem c10_erase_display_cursor_witness :
    ∃ g', Grid.erase_display { Grid.new 3 3 5 with cursor_x := 1, cursor_y := 1 } 0
        = some g' ∧
      ((0 = 2 ∨ 0 = 3) → g'.cursor_x = 0 ∧ g'.cursor_y = 0) ∧
      (¬(0 = 2 ∨ 0 = 3) →
        g'.cursor_x = ({ Grid.new 3 3 5 with cursor_x := 1, cursor_y := 1 } : Grid).cursor_x ∧
        g'.cursor_y = ({ Grid.new 3 3 5 with cursor_x := 1, cursor_y := 1 } : Grid).cursor_y) :=
  c10_erase_display_cursor { Grid.new 3 3 5 with cursor_x := 1, cursor_y := 1 }
    ⟨by decide, by decide, by decide, by decide, by decide, by decide, by decide,
      by decide, by decide⟩ 0

theorem getElem?_append_offset (pre ps : List Nat) (j : Nat) :
    (pre ++ ps)[pre.length + j]? = ps[j]? := by
  rw [List.getElem?_append, if_neg (by omega)]
  congr 1
  omega

theorem parse_ext_shift (pre ps : List Nat) (i : Nat) :
    parse_ext (pre ++ ps) (pre.length + i) = parse_ext ps i := by
  unfold parse_ext
  have h1 : (pre ++ ps)[pre.length + i + 1]? = ps[i + 1]? := by
    rw [show pre.length + i + 1 = pre.length + (i + 1) by omega]
    exact getElem?_append_offset pre ps (i + 1)
  have h2 : (pre ++ ps)[pre.length + i + 2]? = ps[i + 2]? := by
    rw [show pre.length + i + 2 = pre.length + (i + 2) by omega]
    exact getElem?_append_offset pre ps (i + 2)
  have h3 : (pre ++ ps)[pre.length + i + 3]? = ps[i + 3]? := by
    rw [show pre.length + i + 3 = pre.length + (i + 3) by omega]
    exact getElem?_append_offset pre ps (i + 3)
  have h4 : (pre ++ ps)[pre.length + i + 4]? = ps[i + 4]? := by
    rw [show pre.length + i + 4 = pre.length + (i + 4) by omega]
    exact getElem?_append_offset pre ps (i + 4)
  rw [h1, h2, h3, h4]

theorem getD_append_offset (pre ps : List Nat) (j d : Nat) :
    (pre ++ ps).getD (pre.length + j) d = ps.getD j d := by
  rw [List.getD_eq_getElem?_getD, List.getD_eq_getElem?_getD,
    getElem?_append_offset]

theorem sgrLoop_shift (pre ps : List Nat) : ∀ (fuel i : Nat) (pen : Pen),
    sgrLoop (pre ++ ps) fuel (pre.length + i) pen = sgrLoop ps fuel i pen := by
  intro fuel
  induction fuel with
  | zero => intro i pen; rfl
  | succ fuel ih =>
    intro i pen
    rw [sgrLoop, sgrLoop]
    by_cases hlt : i < ps.length
    · rw [if_pos (by rw [List.length_append]; omega), if_pos hlt]
      rw [getD_append_offset, parse_ext_shift]
      by_cases h38 : ps.getD i 0 = 38
      · rw [if_pos h38, if_pos h38]
        cases hpe : parse_ext ps i with
        | none =>
          rw [show pre.length + i + 1 = pre.length + (i + 1) by omega]
          exact ih (i + 1) pen
        | some cd =>
          obtain ⟨c, d⟩ := cd
          dsimp only
          rw [show pre.length + i + d + 1 = pre.length + (i + d + 1) by omega]
          exact ih (i + d + 1) _
      · rw [if_neg h38, if_neg h38]
        by_cases h48 : ps.getD i 0 = 48
        · rw [if_pos h48, if_pos h48]
          cases hpe : parse_ext ps i with
          | none =>
            rw [show pre.length + i + 1 = pre.length + (i + 1) by omega]
            exact ih (i + 1) pen
          | some cd =>
            obtain ⟨c, d⟩ := cd
            dsimp only
            rw [show pre.length + i + d + 1 = pre.length + (i + d + 1) by omega]
            exact ih (i + d + 1) _
        · rw [if_neg h48, if_neg h48]
          rw [show pre.length + i + 1 = pre.length + (i + 1) by omega]
          exact ih (i + 1) _
    · rw [if_neg (by rw [List.length_append]; omega), if_neg hlt]

theorem sgrLoop_fuel (ps : List Nat) : ∀ (f1 f2 i : Nat) (pen : Pen),
    ps.length - i ≤ f1 → ps.length - i ≤ f2 →
    sgrLoop ps f1 i pen = sgrLoop ps f2 i pen := by
  intro f1
  induction f1 with
  | zero =>
    intro f2 i pen h1 h2
    cases f2 with
    | zero => rfl
    | succ f2 =>
      rw [sgrLoop, sgrLoop, if_neg (by omega)]
  | succ f1 ih =>
    intro f2 i pen h1 h2
    by_cases hlt : i < ps.length
    · cases f2 with
      | zero => omega
      | succ f2 =>
        rw [sgrLoop, sgrLoop, if_pos hlt, if_pos hlt]
        by_cases h38 : ps.getD i 0 = 38
        · rw [if_pos h38, if_pos h38]
          cases hpe : parse_ext ps i with
          | none => exact ih f2 (i + 1) pen (by omega) (by omega)
          | some cd =>
            obtain ⟨c, d⟩ := cd
            dsimp only
            exact ih f2 (i + d + 1) _ (by omega) (by omega)
        · rw [if_neg h38, if_neg h38]
          by_cases h48 : ps.getD i 0 = 48
          · rw [if_pos h48, if_pos h48]
            cases hpe : parse_ext ps i with
            | none => exact ih f2 (i + 1) pen (by omega) (by omega)
            | some cd =>
              obtain ⟨c, d⟩ := cd
              exact ih f2 (i + d + 1) _ (by omega) (by omega)
          · rw [if_neg h48, if_neg h48]
            exact ih f2 (i + 1) _ (by omega) (by omega)
    · cases f2 with
      | zero => rw [sgrLoop, sgrLoop, if_neg hlt]
      | succ f2 => rw [sgrLoop, sgrLoop, if_neg hlt, if_neg hlt]

theorem handle_sgr_38_rgb (r g b : Nat) (rest : List Nat) (pen : Pen) :
    handle_sgr (38 :: 2 :: r :: g :: b :: rest) pen =
      sgrLoop rest rest.length 0
        { pen with current_fg := TermColor.Rgb (r % 256) (g % 256) (b % 256) } := by
  rw [handle_sgr, if_neg (by simp)]
  show sgrLoop ([38, 2, r, g, b] ++ rest) (rest.length + 5) 0 _ = _
  rw [sgrLoop, if_pos (by simp)]
  have hget : ([38, 2, r, g, b] ++ rest).getD 0 0 = 38 := rfl
  rw [hget, if_pos rfl]
  have hpe : parse_ext ([38, 2, r, g, b] ++ rest) 0 =
      some (TermColor.Rgb (r % 256) (g % 256) (b % 256), 4) := by
    simp [parse_ext]
  rw [hpe]
  dsimp only
  show sgrLoop ([38, 2, r, g, b] ++ rest) (rest.length + 4)
    ((List.length [38, 2, r, g, b]) + 0) _ = _
  rw [sgrLoop_shift]
  exact sgrLoop_fuel rest (rest.length + 4) rest.length 0 _ (by omega) (by omega)

theorem handle_sgr_38_idx (n : Nat) (rest : List Nat) (pen : Pen) :
    handle_sgr (38 :: 5 :: n :: rest) pen =
      sgrLoop rest rest.length 0
        { pen with current_fg := TermColor.Ansi256 (n % 256) } := by
  rw [handle_sgr, if_neg (by simp)]
  show sgrLoop ([38, 5, n] ++ rest) (rest.length + 3) 0 _ = _
  rw [sgrLoop, if_pos (by simp)]
  have hget : ([38, 5, n] ++ rest).getD 0 0 = 38 := rfl
  rw [hget, if_pos rfl]
  have hpe : parse_ext ([38, 5, n] ++ rest) 0 =
      some (TermColor.Ansi256 (n % 256), 2) := by
    simp [parse_ext]
  rw [hpe]
  dsimp only
  show sgrLoop ([38, 5, n] ++ rest) (rest.length + 2)
    ((List.length [38, 5, n]) + 0) _ = _
  rw [sgrLoop_shift]
  exact sgrLoop_fuel rest (rest.length + 2) rest.length 0 _ (by omega) (by omega)

theorem handle_sgr_48_rgb (r g b : Nat) (rest : List Nat) (pen : Pen) :
    handle_sgr (48 :: 2 :: r :: g :: b :: rest) pen =
      sgrLoop rest rest.length 0
        { pen with current_bg := TermColor.Rgb (r % 256) (g % 256) (b % 256) } := by
  rw [handle_sgr, if_neg (by simp)]
  show sgrLoop ([48, 2, r, g, b] ++ rest) (rest.length + 5) 0 _ = _
  rw [sgrLoop, if_pos (by simp)]
  have hget : ([48, 2, r, g, b] ++ rest).getD 0 0 = 48 := rfl
  rw [hget, if_neg (by omega), if_pos rfl]
  have hpe : parse_ext ([48, 2, r, g, b] ++ rest) 0 =
      some (TermColor.Rgb (r % 256) (g % 256) (b % 256), 4) := by
    simp [parse_ext]
  rw [hpe]
  dsimp only
  show sgrLoop ([48, 2, r, g, b] ++ rest) (rest.length + 4)
    ((List.length [48, 2, r, g, b]) + 0) _ = _
  rw [sgrLoop_shift]
  exact sgrLoop_fuel rest (rest.length + 4) rest.length 0 _ (by omega) (by omega)

theorem handle_sgr_48_idx (n : Nat) (rest : List Nat) (pen : Pen) :
    handle_sgr (48 :: 5 :: n :: rest) pen =
      sgrLoop rest rest.length 0
        { pen with current_bg := TermColor.Ansi256 (n % 256) } := by
  rw [handle_sgr, if_neg (by simp)]
  show sgrLoop ([48, 5, n] ++ rest) (rest.length + 3) 0 _ = _
  rw [sgrLoop, if_pos (by simp)]
  have hget : ([48, 5, n] ++ rest).getD 0 0 = 48 := rfl
  rw [hget, if_neg (by omega), if_pos rfl]
  have hpe : parse_ext ([48, 5, n] ++ rest) 0 =
      some (TermColor.Ansi256 (n % 256), 2) := by
    simp [parse_ext]
  rw [hpe]
  dsimp only
  show sgrLoop ([48, 5, n] ++ rest) (rest.length + 2)
    ((List.length [48, 5, n]) + 0) _ = _
  rw [sgrLoop_shift]
  exact sgrLoop_fuel rest (rest.length + 2) rest.length 0 _ (by omega) (by omega)

theorem handle_sgr_38_failure (rest : List Nat) (pen : Pen)
    (hfail : parse_ext (38 :: rest) 0 = none) :
    handle_sgr (38 :: rest) pen = sgrLoop rest rest.length 0 pen := by
  rw [handle_sgr, if_neg (by simp)]
  show sgrLoop ([38] ++ rest) (rest.length + 1) 0 _ = _
  rw [sgrLoop, if_pos (by simp)]
  have hget : ([38] ++ rest).getD 0 0 = 38 := rfl
  rw [hget, if_pos rfl]
  rw [show ([38] ++ rest : List Nat) = 38 :: rest from rfl, hfail]
  dsimp only
  show sgrLoop ([38] ++ rest) rest.length ((List.length [38]) + 0) _ = _
  rw [sgrLoop_shift]

theorem handle_sgr_48_failure (rest : List Nat) (pen : Pen)
    (hfail : parse_ext (48 :: rest) 0 = none) :
    handle_sgr (48 :: rest) pen = sgrLoop rest rest.length 0 pen := by
  rw [handle_sgr, if_neg (by simp)]
  show sgrLoop ([48] ++ rest) (rest.length + 1) 0 _ = _
  rw [sgrLoop, if_pos (by simp)]
  have hget : ([48] ++ rest).getD 0 0 = 48 := rfl
  rw [hget, if_neg (by omega), if_pos rfl]
  rw [show ([48] ++ rest : List Nat) = 48 :: rest from rfl, hfail]
  dsimp only
  show sgrLoop ([48] ++ rest) rest.length ((List.length [48]) + 0) _ = _
  rw [sgrLoop_shift]

theorem sgrLoop_eq_handle_sgr {rest : List Nat} (h : rest ≠ []) (pen : Pen) :
    sgrLoop rest rest.length 0 pen = handle_sgr rest pen := by
  rw [handle_sgr, if_neg (by simpa using h)]

/-- C4 counterexample: the claim says a malformed extended-color sequence
such as SGR 38;9 is dropped without mutating the pen's color state or
attributes, but handle_sgr [38, 9] on a default pen sets the strikeout
attribute (the unconsumed tail token 9 is re-processed as an ordinary SGR
code). -/
theorem c4_sgr_38_9_mutates_attrs :
    (handle_sgr [38, 9] Pen.default).current_fg = TermColor.Default ∧
    (handle_sgr [38, 9] Pen.default).current_attrs ≠ Attrs.default ∧
    (handle_sgr [38, 9] Pen.default).current_attrs.strikeout = true := by
  refine ⟨?_, ?_, ?_⟩ <;> decide

/-- C4 (amended): SGR 38 (resp. 48) followed by 2 and three tokens sets a
true-RGB foreground (resp. background) consuming exactly those tokens, and
followed by 5 and one token sets an indexed-256 color; on any other
sub-selector or insufficient remaining tokens (parse_ext returning none)
the color state is left unchanged and only the 38/48 token itself is
dropped — the remaining tokens are then processed as ordinary SGR codes,
so SGR 38;9 keeps the foreground but sets strikeout. -/
theorem c4_sgr_extended_color_parsing :
    (∀ (r g b : Nat) (pen : Pen), handle_sgr [38, 2, r, g, b] pen =
      { pen with current_fg := TermColor.Rgb (r % 256) (g % 256) (b % 256) }) ∧
    (∀ (r g b : Nat) (rest : List Nat) (pen : Pen), rest ≠ [] →
      handle_sgr (38 :: 2 :: r :: g :: b :: rest) pen =
        handle_sgr rest
          { pen with current_fg := TermColor.Rgb (r % 256) (g % 256) (b % 256) }) ∧
    (∀ (n : Nat) (pen : Pen), handle_sgr [38, 5, n] pen =
      { pen with current_fg := TermColor.Ansi256 (n % 256) }) ∧
    (∀ (n : Nat) (rest : List Nat) (pen : Pen), rest ≠ [] →
      handle_sgr (38 :: 5 :: n :: rest) pen =
        handle_sgr rest { pen with current_fg := TermColor.Ansi256 (n % 256) }) ∧
    (∀ (r g b : Nat) (pen : Pen), handle_sgr [48, 2, r, g, b] pen =
      { pen with current_bg := TermColor.Rgb (r % 256) (g % 256) (b % 256) }) ∧
    (∀ (n : Nat) (pen : Pen), handle_sgr [48, 5, n] pen =
      { pen with current_bg := TermColor.Ansi256 (n % 256) }) ∧
    (∀ (rest : List Nat) (pen : Pen), parse_ext (38 :: rest) 0 = none → rest ≠ [] →
      handle_sgr (38 :: rest) pen = handle_sgr rest pen) ∧
    (∀ pen : Pen, handle_sgr [38] pen = pen) ∧
    (∀ (rest : List Nat) (pen : Pen), parse_ext (48 :: rest) 0 = none → rest ≠ [] →
      handle_sgr (48 :: rest) pen = handle_sgr rest pen) ∧
    (∀ pen : Pen, handle_sgr [48] pen = pen) ∧
    handle_sgr [38, 9] Pen.default =
      { Pen.default with current_attrs := { Attrs.default with strikeout := true } } := by
  refine ⟨?_, ?_, ?_, ?_, ?_, ?_, ?_, ?_, ?_, ?_, ?_⟩
  · intro r g b pen
    rw [handle_sgr_38_rgb]
    rfl
  · intro r g b rest pen hne
    rw [handle_sgr_38_rgb, sgrLoop_eq_handle_sgr hne]
  · intro n pen
    rw [handle_sgr_38_idx]
    rfl
  · intro n rest pen hne
    rw [handle_sgr_38_idx, sgrLoop_eq_handle_sgr hne]
  · intro r g b pen
    rw [handle_sgr_48_rgb]
    rfl
  · intro n pen
    rw [handle_sgr_48_idx]
    rfl
  · intro rest pen hfail hne
    rw [handle_sgr_38_failure rest pen hfail, sgrLoop_eq_handle_sgr hne]
  · intro pen
    rw [handle_sgr_38_failure [] pen rfl]
    rfl
  · intro rest pen hfail hne
    rw [handle_sgr_48_failure rest pen hfail, sgrLoop_eq_handle_sgr hne]
  · intro pen
    rw [handle_sgr_48_failure [] pen rfl]
    rfl
  · decide

/-- C4 witness. -/
theorem c4_sgr_extended_color_parsing_witness :
    handle_sgr (38 :: 2 :: 10 :: 20 :: 30 :: [1]) Pen.default =
      handle_sgr [1] { Pen.default with
        current_fg := TermColor.Rgb (10 % 256) (20 % 256) (30 % 256) } ∧
    handle_sgr (38 :: 9 :: [7]) Pen.default = handle_sgr (9 :: [7]) Pen.default :=
  ⟨c4_sgr_extended_color_parsing.2.1 10 20 30 [1] Pen.default (by decide),
   c4_sgr_extended_color_parsing.2.2.2.2.2.2.1 (9 :: [7]) Pen.default (by decide)
     (by decide)⟩

theorem writeCell_w1_eq {g : Grid} {row : List Cell}
    (hrow : g.cells[g.cursor_y]? = some row) (hx : g.cursor_x < row.length)
    (ch : Char) (fg bg : TermColor) (attrs : Attrs) :
    g.writeCell ch fg bg attrs 1 = some { g with
      cells := g.cells.set g.cursor_y
        (row.set g.cursor_x { ch := ch, fg := fg, bg := bg, attrs := attrs, width := 1 }),
      cursor_x := g.cursor_x + 1 } := by
  unfold Grid.writeCell
  rw [setCell_eq hrow hx]
  simp only [Option.some_bind]
  rw [if_neg (by omega)]

theorem put_char_w1_eq {g : Grid} (hInv : GridInv g) {ch : Char}
    (hw : effWidth ch = 1) (hx : g.cursor_x < g.cols)
    (fg bg : TermColor) (attrs : Attrs) :
    g.put_char ch fg bg attrs = some { g with
      cells := g.cells.set g.cursor_y ((g.cells.getD g.cursor_y []).set g.cursor_x
        { ch := ch, fg := fg, bg := bg, attrs := attrs, width := 1 }),
      cursor_x := g.cursor_x + 1 } := by
  have hy : g.cursor_y < g.cells.length := by rw [hInv.cells_len]; exact hInv.cy_lt
  have hrow : g.cells[g.cursor_y]? = some (g.cells.getD g.cursor_y []) :=
    getElem?_eq_some_getD hy []
  have hrl : (g.cells.getD g.cursor_y []).length = g.cols :=
    rowlen_of_getElemQ hInv hrow
  unfold Grid.put_char
  rw [if_neg (by have := hInv.cy_lt; omega), if_neg (by omega)]
  simp only [Option.some_bind]
  rw [if_neg (by rw [hw]; omega), hw]
  exact writeCell_w1_eq hrow (by omega) ch fg bg attrs

/-- C3: printing a wide (width-2) codepoint with the cursor at the last
column of a row above scroll_bot wraps first: the glyph lands at the start
of the next row with a zero-width continuation cell after it when a second
column exists (the continuation is skipped when cols = 1), the original
row - in particular its last column - is untouched, and the cursor
advances by 2 from the wrapped position. -/
theorem c3_wide_char_wraps_no_split {g : Grid} (ch : Char)
    (fg bg : TermColor) (attrs : Attrs)
    (hlen : g.cells.length = g.rows)
    (hrows : ∀ r ∈ g.cells, r.length = g.cols)
    (hy : g.cursor_y < g.scroll_bot) (hbot : g.scroll_bot < g.rows)
    (hx : g.cursor_x = g.cols - 1) (hcols : 1 ≤ g.cols)
    (hw : effWidth ch = 2) :
    ∃ g' row', g.put_char ch fg bg attrs = some g' ∧
      g'.cursor_y = g.cursor_y + 1 ∧ g'.cursor_x = 2 ∧
      g'.cells[g.cursor_y]? = g.cells[g.cursor_y]? ∧
      g'.cells[g.cursor_y + 1]? = some row' ∧
      row'.getD 0 Cell.default =
        { ch := ch, fg := fg, bg := bg, attrs := attrs, width := 2 } ∧
      (2 ≤ g.cols → row'.getD 1 Cell.default =
        { ch := ' ', fg := fg, bg := bg, attrs := attrs, width := 0 }) ∧
      (g.cols = 1 → row' =
        [{ ch := ch, fg := fg, bg := bg, attrs := attrs, width := 2 }]) := by
  have hy1 : g.cursor_y + 1 < g.cells.length := by omega
  obtain ⟨row1, hrow1⟩ : ∃ row1, g.cells[g.cursor_y + 1]? = some row1 := by
    rw [getElem?_eq_some_getD hy1 []]; exact ⟨_, rfl⟩
  have hrl1 : row1.length = g.cols := hrows row1 (mem_of_getElemQ hrow1)
  set glyph : Cell := { ch := ch, fg := fg, bg := bg, attrs := attrs, width := 2 }
    with hglyph
  set cont : Cell := { ch := ' ', fg := fg, bg := bg, attrs := attrs, width := 0 }
    with hcont
  unfold Grid.put_char
  rw [if_neg (by omega), if_neg (by omega)]
  simp only [Option.some_bind]
  rw [hw, if_pos ⟨rfl, by omega⟩]
  rw [show Grid.newline { g with cursor_x := 0 } =
      some { g with cursor_x := 0, cursor_y := g.cursor_y + 1 } by
    unfold Grid.newline
    rw [if_neg (show ¬(g.scroll_bot ≤ g.cursor_y) by omega)]]
  simp only [Option.some_bind]
  rw [if_neg (show ¬(g.rows ≤ g.cursor_y + 1) by omega)]
  unfold Grid.writeCell
  rw [setCell_eq (show (g.cells[g.cursor_y + 1]? = some row1) from hrow1)
    (show (0 : Nat) < row1.length by omega)]
  simp only [Option.some_bind, if_true]
  by_cases h2 : 0 + 1 < g.cols
  · rw [if_pos h2]
    rw [setCell_eq (show ((g.cells.set (g.cursor_y + 1)
        (row1.set 0 glyph))[g.cursor_y + 1]? = some (row1.set 0 glyph)) by
      rw [List.getElem?_set, if_pos rfl, if_pos hy1]) (by
        rw [List.length_set]; omega)]
    simp only [Option.map_some']
    refine ⟨_, (row1.set 0 glyph).set (0 + 1) cont, rfl, rfl, rfl, ?_, ?_, ?_, ?_, ?_⟩
    · show ((g.cells.set (g.cursor_y + 1) (row1.set 0 glyph)).set (g.cursor_y + 1)
        ((row1.set 0 glyph).set (0 + 1) cont))[g.cursor_y]? = g.cells[g.cursor_y]?
      rw [List.set_set, List.getElem?_set, if_neg (by omega)]
    · show ((g.cells.set (g.cursor_y + 1) (row1.set 0 glyph)).set (g.cursor_y + 1)
        ((row1.set 0 glyph).set (0 + 1) cont))[g.cursor_y + 1]? = _
      rw [List.set_set, List.getElem?_set, if_pos rfl, if_pos hy1]
    · rw [List.getD_eq_getElem?_getD, List.getElem?_set, if_neg (by omega),
        List.getElem?_set, if_pos rfl, if_pos (by omega)]
      rfl
    · intro h
      rw [List.getD_eq_getElem?_getD, List.getElem?_set, if_pos rfl,
        if_pos (by rw [List.length_set]; omega)]
      rfl
    · intro h
      omega
  · rw [if_neg h2]
    simp only [Option.map_some']
    have hc1 : g.cols = 1 := by omega
    refine ⟨_, row1.set 0 glyph, rfl, rfl, rfl, ?_, ?_, ?_, ?_, ?_⟩
    · show (g.cells.set (g.cursor_y + 1) (row1.set 0 glyph))[g.cursor_y]? =
        g.cells[g.cursor_y]?
      rw [List.getElem?_set, if_neg (by omega)]
    · show (g.cells.set (g.cursor_y + 1) (row1.set 0 glyph))[g.cursor_y + 1]? = _
      rw [List.getElem?_set, if_pos rfl, if_pos hy1]
    · rw [List.getD_eq_getElem?_getD, List.getElem?_set, if_pos rfl,
        if_pos (by omega)]
      rfl
    · intro h
      omega
    · intro h
      have hl1 : row1.length = 1 := by omega
      obtain ⟨c0, hc0⟩ := List.length_eq_one.mp hl1
      rw [hc0]
      rfl

/-- C3 witness. -/
theorem c3_wide_char_wraps_no_split_witness :
    ∃ g' row', Grid.put_char { Grid.new 2 2 10 with cursor_x := 1 }
        (Char.ofNat 0x4E00) TermColor.Default TermColor.Default Attrs.default
        = some g' ∧
      g'.cursor_y = ({ Grid.new 2 2 10 with cursor_x := 1 } : Grid).cursor_y + 1 ∧
      g'.cursor_x = 2 ∧
      g'.cells[({ Grid.new 2 2 10 with cursor_x := 1 } : Grid).cursor_y]? =
        ({ Grid.new 2 2 10 with cursor_x := 1 } : Grid).cells[({ Grid.new 2 2 10 with cursor_x := 1 } : Grid).cursor_y]? ∧
      g'.cells[({ Grid.new 2 2 10 with cursor_x := 1 } : Grid).cursor_y + 1]? =
        some row' ∧
      row'.getD 0 Cell.default =
        { ch := Char.ofNat 0x4E00, fg := TermColor.Default,
          bg := TermColor.Default, attrs := Attrs.default, width := 2 } ∧
      (2 ≤ ({ Grid.new 2 2 10 with cursor_x := 1 } : Grid).cols →
        row'.getD 1 Cell.default =
          { ch := ' ', fg := TermColor.Default,
            bg := TermColor.Default, attrs := Attrs.default, width := 0 }) ∧
      (({ Grid.new 2 2 10 with cursor_x := 1 } : Grid).cols = 1 →
        row' =
          [{ ch := Char.ofNat 0x4E00, fg := TermColor.Default,
             bg := TermColor.Default, attrs := Attrs.default, width := 2 }]) :=
  c3_wide_char_wraps_no_split (Char.ofNat 0x4E00) TermColor.Default
    TermColor.Default Attrs.default (by decide) (by decide) (by decide)
    (by decide) (by decide) (by decide) (by decide)

theorem printN_fill {ch : Char} (hw : effWidth ch = 1) (fg bg : TermColor)
    (attrs : Attrs) : ∀ (j : Nat) (g : Grid), GridInv g → g.cursor_x + j ≤ g.cols →
    printN g ch fg bg attrs j = some { g with
      cursor_x := g.cursor_x + j,
      cells := g.cells.set g.cursor_y
        ((g.cells.getD g.cursor_y []).take g.cursor_x ++
          List.replicate j { ch := ch, fg := fg, bg := bg, attrs := attrs, width := 1 } ++
          (g.cells.getD g.cursor_y []).drop (g.cursor_x + j)) } := by
  intro j
  induction j with
  | zero =>
    intro g hInv hle
    have hy : g.cursor_y < g.cells.length := by
      rw [hInv.cells_len]; exact hInv.cy_lt
    have hrl : (g.cells.getD g.cursor_y []).length = g.cols :=
      rowlen_of_getElemQ hInv (getElem?_eq_some_getD hy [])
    rw [printN]
    congr 1
    have hrow : (g.cells.getD g.cursor_y []).take g.cursor_x ++
        List.replicate 0 { ch := ch, fg := fg, bg := bg, attrs := attrs, width := 1 } ++
        (g.cells.getD g.cursor_y []).drop (g.cursor_x + 0) = g.cells.getD g.cursor_y [] := by
      rw [List.replicate_zero, List.append_nil, Nat.add_zero, List.take_append_drop]
    rw [hrow]
    have hset : g.cells.set g.cursor_y (g.cells.getD g.cursor_y []) = g.cells := by
      refine List.ext_getElem? fun i => ?_
      rw [List.getElem?_set]
      by_cases hyi : g.cursor_y = i
      · subst hyi
        rw [if_pos rfl, if_pos hy, getElem?_eq_some_getD hy]
      · rw [if_neg hyi]
    rw [hset, Nat.add_zero]
  | succ j ih =>
    intro g hInv hle
    have hy : g.cursor_y < g.cells.length := by
      rw [hInv.cells_len]; exact hInv.cy_lt
    have hrow : g.cells[g.cursor_y]? = some (g.cells.getD g.cursor_y []) :=
      getElem?_eq_some_getD hy []
    have hrl : (g.cells.getD g.cursor_y []).length = g.cols :=
      rowlen_of_getElemQ hInv hrow
    have hx : g.cursor_x < g.cols := by omega
    rw [printN, put_char_w1_eq hInv hw hx fg bg attrs, Option.some_bind]
    set row := g.cells.getD g.cursor_y [] with hrowdef
    set pc : Cell := { ch := ch, fg := fg, bg := bg, attrs := attrs, width := 1 }
      with hpc
    set g1 : Grid := { g with
      cells := g.cells.set g.cursor_y (row.set g.cursor_x pc),
      cursor_x := g.cursor_x + 1 } with hg1
    have hInv1 : GridInv g1 := by
      refine ⟨hInv.rows_pos, hInv.cols_two, ?_, ?_, by show g.cursor_x + 1 ≤ g.cols; omega,
        hInv.cy_lt, hInv.top_le_bot, hInv.bot_lt, hInv.sb_le⟩
      · show (g.cells.set g.cursor_y (row.set g.cursor_x pc)).length = g.rows
        rw [List.length_set, hInv.cells_len]
      · intro r hr
        rcases List.mem_or_eq_of_mem_set hr with h | h
        · exact hInv.row_len r h
        · rw [h, List.length_set, hrl]
    have hle1 : g1.cursor_x + j ≤ g1.cols := by
      show g.cursor_x + 1 + j ≤ g.cols
      omega
    rw [ih g1 hInv1 hle1]
    have hrow1 : g1.cells.getD g1.cursor_y [] = row.set g.cursor_x pc := by
      show (g.cells.set g.cursor_y (row.set g.cursor_x pc)).getD g.cursor_y [] = _
      rw [List.getD_eq_getElem?_getD, List.getElem?_set, if_pos rfl, if_pos hy]
      rfl
    congr 1
    simp only [Grid.mk.injEq]
    refine ⟨trivial, trivial, ?_, ?_, trivial, trivial, trivial, trivial, trivial, trivial⟩
    · show (g.cells.set g.cursor_y (row.set g.cursor_x pc)).set g.cursor_y
        ((g1.cells.getD g1.cursor_y []).take g1.cursor_x ++ List.replicate j pc ++
          (g1.cells.getD g1.cursor_y []).drop (g1.cursor_x + j)) =
        g.cells.set g.cursor_y
          (row.take g.cursor_x ++ List.replicate (j + 1) pc ++ row.drop (g.cursor_x + (j + 1)))
      rw [List.set_set, hrow1]
      congr 1
      have hsplit : row.set g.cursor_x pc = row.take g.cursor_x ++ pc :: row.drop (g.cursor_x + 1) :=
        List.set_eq_take_cons_drop pc (by omega)
      have htk : (row.set g.cursor_x pc).take (g.cursor_x + 1) =
          row.take g.cursor_x ++ [pc] := by
        rw [hsplit]
        rw [show g.cursor_x + 1 = (row.take g.cursor_x).length + 1 by
          rw [List.length_take]; omega]
        rw [List.take_append]
        rfl
      have hdr : (row.set g.cursor_x pc).drop (g.cursor_x + 1 + j) =
          row.drop (g.cursor_x + 1 + j) := by
        conv_lhs => rw [hsplit,
          show g.cursor_x + 1 + j = (row.take g.cursor_x).length + (1 + j) by
            rw [List.length_take]; omega]
        rw [List.drop_append]
        conv_lhs => rw [show (1 + j) = j + 1 by omega]
        rw [show List.drop (j + 1) (pc :: row.drop (g.cursor_x + 1)) =
          List.drop j (row.drop (g.cursor_x + 1)) from rfl]
        rw [List.drop_drop]
      show (row.set g.cursor_x pc).take (g.cursor_x + 1) ++ List.replicate j pc ++
          (row.set g.cursor_x pc).drop (g.cursor_x + 1 + j) = _
      rw [htk, hdr]
      simp only [List.append_assoc, List.singleton_append, List.replicate_succ,
        List.cons_append, List.nil_append]
      rw [show g.cursor_x + 1 + j = g.cursor_x + (j + 1) by omega]
    · show g.cursor_x + 1 + j = g.cursor_x + (j + 1)
      omega

/-- C9 counterexample: printing cols (= 2) width-1 characters from column 0
leaves the cursor at (cols, y) - the transient past-the-edge position - not
at (0, y + 1); the wrap is deferred to the next print. -/
theorem c9_cursor_rests_past_edge :
    ∃ g', printN (Grid.new 2 2 10) 'a' TermColor.Default TermColor.Default
        Attrs.default 2 = some g' ∧
      g'.cursor_x = 2 ∧ g'.cursor_y = 0 ∧ ¬(g'.cursor_x = 0 ∧ g'.cursor_y = 1) := by
  refine ⟨_, rfl, ?_, ?_, ?_⟩ <;> decide

/-- C9 (amended): printing cols width-1 copies of a character from column 0
of a row above scroll_bot fills each of the cols cells of that row with
exactly one copy (no column lost or duplicated), leaves every other row
untouched, and leaves the cursor at the transient position (cols, y); the
single wrap then happens on the next put_char, which moves to (0, y + 1),
writes there and advances to column 1. -/
theorem c9_print_cols_fills_row {g : Grid} (hInv : GridInv g) (ch : Char)
    (fg bg : TermColor) (attrs : Attrs) (hw : effWidth ch = 1)
    (hx : g.cursor_x = 0) (hy : g.cursor_y < g.scroll_bot) :
    ∃ g' g'', printN g ch fg bg attrs g.cols = some g' ∧
      g'.cursor_x = g.cols ∧ g'.cursor_y = g.cursor_y ∧
      g'.cells.getD g.cursor_y [] = List.replicate g.cols
        { ch := ch, fg := fg, bg := bg, attrs := attrs, width := 1 } ∧
      (∀ i, i ≠ g.cursor_y → g'.cells[i]? = g.cells[i]?) ∧
      g'.put_char ch fg bg attrs = some g'' ∧
      g''.cursor_x = 1 ∧ g''.cursor_y = g.cursor_y + 1 ∧
      (g''.cells.getD (g.cursor_y + 1) []).getD 0 Cell.default =
        { ch := ch, fg := fg, bg := bg, attrs := attrs, width := 1 } := by
  have hycell : g.cursor_y < g.cells.length := by
    rw [hInv.cells_len]; exact hInv.cy_lt
  have hrl : (g.cells.getD g.cursor_y []).length = g.cols :=
    rowlen_of_getElemQ hInv (getElem?_eq_some_getD hycell [])
  set pc : Cell := { ch := ch, fg := fg, bg := bg, attrs := attrs, width := 1 }
    with hpc
  have hfill := printN_fill hw fg bg attrs g.cols g hInv (by omega)
  set row := g.cells.getD g.cursor_y [] with hrowdef
  have hrowfull : row.take g.cursor_x ++ List.replicate g.cols pc ++
      row.drop (g.cursor_x + g.cols) = List.replicate g.cols pc := by
    rw [hx, List.take_zero, List.nil_append, List.drop_eq_nil_of_le (by omega),
      List.append_nil]
  rw [hrowfull] at hfill
  set g1 : Grid := { g with
    cursor_x := g.cursor_x + g.cols,
    cells := g.cells.set g.cursor_y (List.replicate g.cols pc) } with hg1
  have hy1 : g.cursor_y + 1 < g.cells.length := by
    rw [hInv.cells_len]
    have := hInv.bot_lt
    omega
  obtain ⟨row1, hrow1⟩ : ∃ row1, g.cells[g.cursor_y + 1]? = some row1 := by
    rw [getElem?_eq_some_getD hy1 []]; exact ⟨_, rfl⟩
  have hrl1 : row1.length = g.cols := hInv.row_len row1 (mem_of_getElemQ hrow1)
  have hrow1g1 : g1.cells[g.cursor_y + 1]? = some row1 := by
    show (g.cells.set g.cursor_y (List.replicate g.cols pc))[g.cursor_y + 1]? = _
    rw [List.getElem?_set, if_neg (by omega)]
    exact hrow1
  have hput : g1.put_char ch fg bg attrs = some { g1 with
      cells := g1.cells.set (g.cursor_y + 1) (row1.set 0 pc),
      cursor_x := 0 + 1, cursor_y := g.cursor_y + 1 } := by
    unfold Grid.put_char
    rw [if_neg (show ¬(g1.rows ≤ g1.cursor_y) by
      show ¬(g.rows ≤ g.cursor_y)
      have := hInv.cy_lt
      omega)]
    rw [if_pos (show g1.cols ≤ g1.cursor_x by
      show g.cols ≤ g.cursor_x + g.cols
      omega)]
    rw [show Grid.newline { g1 with cursor_x := 0 } =
        some { g1 with cursor_x := 0, cursor_y := g.cursor_y + 1 } by
      unfold Grid.newline
      rw [if_neg (show ¬(g.scroll_bot ≤ g.cursor_y) by omega)]]
    simp only [Option.some_bind]
    rw [hw, if_neg (by omega)]
    exact writeCell_w1_eq
      (show ({ g1 with cursor_x := 0, cursor_y := g.cursor_y + 1 } :
        Grid).cells[({ g1 with cursor_x := 0, cursor_y := g.cursor_y + 1 } :
        Grid).cursor_y]? = some row1 from hrow1g1)
      (show (0 : Nat) < row1.length by have := hInv.cols_two; omega) ch fg bg attrs
  refine ⟨g1, _, hfill, by show g.cursor_x + g.cols = g.cols; omega, rfl, ?_, ?_,
    hput, rfl, rfl, ?_⟩
  · show (g.cells.set g.cursor_y (List.replicate g.cols pc)).getD g.cursor_y [] = _
    rw [List.getD_eq_getElem?_getD, List.getElem?_set, if_pos rfl, if_pos hycell]
    rfl
  · intro i hi
    show (g.cells.set g.cursor_y (List.replicate g.cols pc))[i]? = g.cells[i]?
    rw [List.getElem?_set, if_neg (fun h => hi h.symm)]
  · show ((g1.cells.set (g.cursor_y + 1) (row1.set 0 pc)).getD (g.cursor_y + 1)
      []).getD 0 Cell.default = pc
    have hinner : (g1.cells.set (g.cursor_y + 1) (row1.set 0 pc)).getD
        (g.cursor_y + 1) [] = row1.set 0 pc := by
      rw [List.getD_eq_getElem?_getD, List.getElem?_set, if_pos rfl,
        if_pos (show g.cursor_y + 1 < g1.cells.length by
          show g.cursor_y + 1 < (g.cells.set g.cursor_y
            (List.replicate g.cols pc)).length
          rw [List.length_set]
          omega)]
      rfl
    rw [hinner]
    rw [List.getD_eq_getElem?_getD, List.getElem?_set, if_pos rfl,
      if_pos (show (0 : Nat) < row1.length by have := hInv.cols_two; omega)]
    rfl

/-- C9 witness. -/
theorem c9_print_cols_fills_row_witness :
    ∃ g' g'', printN (Grid.new 3 4 10) 'a' TermColor.Default TermColor.Default
        Attrs.default (Grid.new 3 4 10).cols = some g' ∧
      g'.cursor_x = (Grid.new 3 4 10).cols ∧
      g'.cursor_y = (Grid.new 3 4 10).cursor_y ∧
      g'.cells.getD (Grid.new 3 4 10).cursor_y [] =
        List.replicate (Grid.new 3 4 10).cols
          { ch := 'a', fg := TermColor.Default, bg := TermColor.Default,
            attrs := Attrs.default, width := 1 } ∧
      (∀ i, i ≠ (Grid.new 3 4 10).cursor_y →
        g'.cells[i]? = (Grid.new 3 4 10).cells[i]?) ∧
      g'.put_char 'a' TermColor.Default TermColor.Default Attrs.default = some g'' ∧
      g''.cursor_x = 1 ∧ g''.cursor_y = (Grid.new 3 4 10).cursor_y + 1 ∧
      (g''.cells.getD ((Grid.new 3 4 10).cursor_y + 1) []).getD 0 Cell.default =
        { ch := 'a', fg := TermColor.Default, bg := TermColor.Default,
          attrs := Attrs.default, width := 1 } :=
  c9_print_cols_fills_row (gridInv_new 10 (by decide) (by decide)) 'a'
    TermColor.Default TermColor.Default Attrs.default (by decide) (by decide)
    (by decide)

/-- C8: refuted — the search engine panics instead of collecting the
matches.  With the one-character query 一 (U+4E00, three bytes in UTF-8)
and a live grid whose single row holds that character (scrollback empty),
search records the match at byte column 0 and resumes scanning at
start = abs + 1 = 1, which lies inside the three-byte encoding of 一, so
the next iteration's slice lower[1..] is not on a character boundary and
panics.  The statement holds for every model lc of String::to_lowercase
that is the identity on the caseless string 一, as the Unicode lowercase
mapping is. -/
theorem c8_search_multibyte_query_panics (lc : List Char → List Char)
    (hlc : lc [Char.ofNat 0x4E00] = [Char.ofNat 0x4E00]) :
    SearchState.search lc
      { query := [Char.ofNat 0x4E00], matches' := [], current_idx := 0,
        active := true }
      [] [[{ Cell.default with ch := Char.ofNat 0x4E00 }]] = none := by
  unfold SearchState.search
  rw [if_neg (by decide)]
  simp only [List.nil_append]
  unfold searchRows
  simp only [List.map_cons, List.map_nil, hlc]
  rfl

/-- C8 witness: the panic input evaluated at a concrete case mapping (the
ASCII-range lowering, which agrees with Unicode on 一). -/
theorem c8_search_multibyte_query_panics_witness :
    SearchState.search
      (fun s => s.map fun c =>
        if c.toNat < 0x41 ∨ 0x5A < c.toNat then c else Char.ofNat (c.toNat + 32))
      { query := [Char.ofNat 0x4E00], matches' := [], current_idx := 0,
        active := true }
      [] [[{ Cell.default with ch := Char.ofNat 0x4E00 }]] = none :=
  c8_search_multibyte_query_panics
    (fun s => s.map fun c =>
      if c.toNat < 0x41 ∨ 0x5A < c.toNat then c else Char.ofNat (c.toNat + 32))
    (by decide)
